import Mathlib

/-!
Verification development for the DeepCasm eZ80 toolchain (assembler `as`,
linker `ld`).  The definitions below are a shallow embedding of the C
sources: `src/as/ez80asm.c`, `src/as/ez80instr.c`, the directive/driver
file (`src/unnamed/part_000`) and `src/ld/ld.c`.  Machine integers are
modelled by `Nat`/`Int`; masks (`& 0xFF`, `& 0xFFFFFF`) and unsigned
wrap-around are made explicit where the C code relies on them.  The C
`FILE*` scratch streams are modelled as byte lists; `asm_error` is
modelled by incrementing the error counter.
-/

set_option maxRecDepth 4096

namespace DeepCasm

/-! ### Constants from ez80asm.h / objformat.h -/

def SECT_ABS : Nat := 0
def SECT_CODE : Nat := 1
def SECT_DATA : Nat := 2
def SECT_BSS : Nat := 3

def SYM_LOCAL : Nat := 0
def SYM_EXPORT : Nat := 1
def SYM_EXT : Nat := 2   -- SYM_EXTERN in the C source

def RELOC_ADDR24 : Nat := 1

def REG_NONE : Nat := 0
def REG_A : Nat := 1
def REG_B : Nat := 2
def REG_C : Nat := 3
def REG_D : Nat := 4
def REG_E : Nat := 5
def REG_H : Nat := 6
def REG_L : Nat := 7
def REG_IXH : Nat := 8
def REG_IXL : Nat := 9
def REG_IYH : Nat := 10
def REG_IYL : Nat := 11
def REG_I : Nat := 12
def REG_R : Nat := 13
def REG_MB : Nat := 14
def REG_AF : Nat := 15
def REG_BC : Nat := 16
def REG_DE : Nat := 17
def REG_HL : Nat := 18
def REG_SP : Nat := 19
def REG_IX : Nat := 20
def REG_IY : Nat := 21
def REG_AF2 : Nat := 22  -- REG_AF_ (alternate register set AF)
def REG_IND_BC : Nat := 23
def REG_IND_DE : Nat := 24
def REG_IND_HL : Nat := 25
def REG_IND_SP : Nat := 26
def REG_IND_IX : Nat := 27
def REG_IND_IY : Nat := 28
def REG_IND_C : Nat := 29

def OP_NONE : Nat := 0
def OP_REG : Nat := 1
def OP_IMM : Nat := 2
def OP_ADDR : Nat := 3
def OP_IND_REG : Nat := 4
def OP_IX_OFF : Nat := 5
def OP_IY_OFF : Nat := 6
def OP_COND : Nat := 7

/-! ### Core assembler state (struct AsmState)

Only the fields relevant to the verified claims are carried: the
temp-file byte streams become `code_bytes`/`data_bytes`, the relocation
temp file becomes `relocs`, and `asm_error` becomes `errors + 1`. -/

/-- Symbol table entry (struct Symbol).  `sect` is the C field
`section` (a Lean keyword). -/
structure Symb where
  name : String
  value : Nat          -- uint24
  sect : Nat           -- section
  flags : Nat
  defined : Bool
  pass1_value : Nat
  deriving Repr, DecidableEq

/-- Relocation record (struct Relocation). -/
structure RelocRec where
  offset : Nat
  sect : Nat           -- section containing the relocation
  rtype : Nat
  target_sect : Nat
  ext_index : Nat
  deriving Repr, DecidableEq

/-- Assembler state (struct AsmState), restricted to the fields the
verified operations touch. -/
structure AsmSt where
  pass : Nat := 1
  errors : Nat := 0
  pc : Nat := 0
  current_section : Nat := SECT_CODE
  code_size : Nat := 0
  data_size : Nat := 0
  bss_size : Nat := 0
  code_pc : Nat := 0
  data_pc : Nat := 0
  bss_pc : Nat := 0
  code_bytes : List Nat := []
  data_bytes : List Nat := []
  relocs : List RelocRec := []
  symbols : List Symb := []
  externs : List String := []
  local_scope : Nat := 0
  deriving Repr, DecidableEq

/-- `asm_error`: report and count an error. -/
def asm_error (st : AsmSt) : AsmSt := { st with errors := st.errors + 1 }

/-- Low 8 bits of a C `int` value (`v & 0xFF` on two's complement). -/
def byteOf (v : Int) : Nat := (v % 256).toNat

/-- Low 24 bits of a C `int` value (`v & 0xFFFFFF`). -/
def mask24 (v : Int) : Nat := (v % 16777216).toNat

/-- `emit_byte`: in pass 2 append the byte to the current section's
stream and bump that section's size counter; always advance the PC.
(BSS only tracks its size.) -/
def emit_byte (st : AsmSt) (b : Nat) : AsmSt :=
  let st1 :=
    if st.pass = 2 then
      if st.current_section = SECT_CODE then
        { st with code_bytes := st.code_bytes ++ [b],
                  code_size := st.code_size + 1 }
      else if st.current_section = SECT_DATA then
        { st with data_bytes := st.data_bytes ++ [b],
                  data_size := st.data_size + 1 }
      else if st.current_section = SECT_BSS then
        { st with bss_size := st.bss_size + 1 }
      else st
    else st
  { st1 with pc := st1.pc + 1 }

/-- `emit_word`: 16-bit little-endian. -/
def emit_word (st : AsmSt) (w : Nat) : AsmSt :=
  emit_byte (emit_byte st (w % 256)) (w / 256 % 256)

/-- `emit_long`: 24-bit little-endian. -/
def emit_long (st : AsmSt) (l : Nat) : AsmSt :=
  emit_byte (emit_byte (emit_byte st (l % 256)) (l / 256 % 256)) (l / 65536 % 256)

/-! ### Symbol table operations (ez80asm.c) -/

/-- `symbol_find`: case-sensitive lookup. -/
def symbol_find (st : AsmSt) (name : String) : Option Symb :=
  st.symbols.find? (fun s => s.name == name)

/-- `symbol_extern_index`: index of `name` in the ordered externs list
(case-sensitive `strcmp`), or `none`. -/
def symbol_extern_index (st : AsmSt) (name : String) : Option Nat :=
  st.externs.findIdx? (fun n => n == name)

/-- `symbol_is_extern` in the C source. -/
def symbol_is_ext (st : AsmSt) (name : String) : Bool :=
  st.externs.any (fun n => n == name)

/-- `symbol_add`: append a fresh symbol initialised to the current
section, `Local`, undefined.  (The `MAX_SYMBOLS` capacity check is kept
so that table-full behaviour matches the C code.) -/
def symbol_add (st : AsmSt) (name : String) : AsmSt × Option Symb :=
  if st.symbols.length ≥ 4096 then (asm_error st, none)
  else
    let sym : Symb := { name := name, value := 0, sect := st.current_section,
                        flags := SYM_LOCAL, defined := false, pass1_value := 0 }
    ({ st with symbols := st.symbols ++ [sym] }, some sym)

/-- Replace the (unique) symbol named `name` using `f`. -/
def symbol_update (st : AsmSt) (name : String) (f : Symb → Symb) : AsmSt :=
  { st with symbols := st.symbols.map (fun s => if s.name == name then f s else s) }

/-- `symbol_define`: define or update `name` at `value` in the current
section.  Errors: redefinition in pass 1; defining an extern. -/
def symbol_define (st : AsmSt) (name : String) (value : Nat) : AsmSt × Int :=
  match symbol_find st name with
  | some sym =>
    if sym.defined ∧ st.pass = 1 then (asm_error st, -1)
    else if sym.flags = SYM_EXT then (asm_error st, -1)
    else
      (symbol_update st name (fun s =>
        { s with value := value, sect := st.current_section, defined := true,
                 pass1_value := if st.pass = 1 then value else s.pass1_value }), 0)
  | none =>
    match symbol_add st name with
    | (st1, none) => (st1, -1)
    | (st1, some _) =>
      (symbol_update st1 name (fun s =>
        { s with value := value, sect := st.current_section, defined := true,
                 pass1_value := if st.pass = 1 then value else s.pass1_value }), 0)

/-- `symbol_set_export`. -/
def symbol_set_export (st : AsmSt) (name : String) : AsmSt × Int :=
  match symbol_find st name with
  | some _ => (symbol_update st name (fun s => { s with flags := SYM_EXPORT }), 0)
  | none =>
    match symbol_add st name with
    | (st1, none) => (st1, -1)
    | (st1, some _) =>
      (symbol_update st1 name (fun s => { s with flags := SYM_EXPORT }), 0)

/-- `symbol_set_extern` in the C source: reject if already defined,
otherwise create if needed, set flags to `SYM_EXT` (the section field is
left as created) and append to the de-duplicated externs list. -/
def symbol_set_xref (st : AsmSt) (name : String) : AsmSt × Int :=
  match symbol_find st name with
  | some sym =>
    if sym.defined then (asm_error st, -1)
    else
      let st1 := symbol_update st name (fun s => { s with flags := SYM_EXT })
      if st1.externs.any (fun n => n == name) then (st1, 0)
      else if st1.externs.length < 128 then
        ({ st1 with externs := st1.externs ++ [name] }, 0)
      else (st1, 0)
  | none =>
    match symbol_add st name with
    | (st1, none) => (st1, -1)
    | (st1, some _) =>
      let st2 := symbol_update st1 name (fun s => { s with flags := SYM_EXT })
      if st2.externs.any (fun n => n == name) then (st2, 0)
      else if st2.externs.length < 128 then
        ({ st2 with externs := st2.externs ++ [name] }, 0)
      else (st2, 0)

/-- `emit_reloc`: in pass 2 (and with a non-empty symbol) record a
relocation at the current section offset. -/
def emit_reloc (st : AsmSt) (ty : Nat) (symbol : String) : AsmSt :=
  if st.pass = 2 ∧ symbol ≠ "" then
    let offset := if st.current_section = SECT_CODE then st.code_size else st.data_size
    match symbol_extern_index st symbol with
    | some idx =>
      { st with relocs := st.relocs ++
          [{ offset := offset, sect := st.current_section, rtype := ty,
             target_sect := 0, ext_index := idx }] }
    | none =>
      let tsect :=
        match symbol_find st symbol with
        | some sym => if sym.defined then sym.sect else st.current_section
        | none => st.current_section
      { st with relocs := st.relocs ++
          [{ offset := offset, sect := st.current_section, rtype := ty,
             target_sect := tsect, ext_index := 0 }] }
  else st

/-! ### Operands and the LD encoder (ez80instr.c) -/

/-- Classified operand (struct Operand).  `otype` is the C field
`type`; `cc` is an `Int` because `CC_NONE = -1`. -/
structure Operand where
  otype : Nat := OP_NONE
  reg : Nat := 0
  cc : Int := -1
  value : Int := 0
  symbol : String := ""
  has_symbol : Bool := false
  deriving Repr, DecidableEq

/-- `get_reg8_code`. -/
def get_reg8_code (reg : Nat) : Int :=
  if reg = REG_B then 0
  else if reg = REG_C then 1
  else if reg = REG_D then 2
  else if reg = REG_E then 3
  else if reg = REG_H then 4
  else if reg = REG_L then 5
  else if reg = REG_A then 7
  else if reg = REG_IXH then 4
  else if reg = REG_IXL then 5
  else if reg = REG_IYH then 4
  else if reg = REG_IYL then 5
  else -1

def is_ix_half (reg : Nat) : Bool := reg == REG_IXH || reg == REG_IXL

def is_iy_half (reg : Nat) : Bool := reg == REG_IYH || reg == REG_IYL

/-- `emit_index_prefix_if_needed`: emit DD/FD for index-half registers;
`-1` flags an IX/IY-half conflict. -/
def emit_index_pfx_if_needed (st : AsmSt) (reg1 reg2 : Nat) : AsmSt × Int :=
  if (is_ix_half reg1 ∧ is_iy_half reg2) ∨ (is_iy_half reg1 ∧ is_ix_half reg2) then
    (st, -1)
  else if is_ix_half reg1 ∨ is_ix_half reg2 then (emit_byte st 0xDD, 1)
  else if is_iy_half reg1 ∨ is_iy_half reg2 then (emit_byte st 0xFD, 1)
  else (st, 0)

/-- `get_reg16_dd_code`. -/
def get_reg16_dd_code (reg : Nat) : Int :=
  if reg = REG_BC then 0
  else if reg = REG_DE then 1
  else if reg = REG_HL then 2
  else if reg = REG_SP then 3
  else -1

/-- `emit_idx_reg_prefix` in the C source. -/
def emit_idx_reg_pfx (st : AsmSt) (reg : Nat) : AsmSt :=
  emit_byte st (if reg = REG_IX then 0xDD else 0xFD)

/-- `emit_idx_off_prefix` in the C source. -/
def emit_idx_off_pfx (st : AsmSt) (op_type : Nat) : AsmSt :=
  emit_byte st (if op_type = OP_IX_OFF then 0xDD else 0xFD)

/-- Special LD register pairs (table `ld_special_pairs`).  `pfx` is the
C field `prefix`. -/
structure LdSpecialPair where
  dest_reg : Nat
  src_reg : Nat
  pfx : Nat
  opcode : Nat
  deriving Repr, DecidableEq

def ld_special_pairs : List LdSpecialPair :=
  [⟨REG_SP, REG_HL, 0x00, 0xF9⟩,
   ⟨REG_SP, REG_IX, 0xDD, 0xF9⟩,
   ⟨REG_SP, REG_IY, 0xFD, 0xF9⟩,
   ⟨REG_I,  REG_A,  0xED, 0x47⟩,
   ⟨REG_R,  REG_A,  0xED, 0x4F⟩,
   ⟨REG_A,  REG_I,  0xED, 0x57⟩,
   ⟨REG_A,  REG_R,  0xED, 0x5F⟩,
   ⟨REG_A,  REG_MB, 0xED, 0x6E⟩,
   ⟨REG_MB, REG_A,  0xED, 0x6D⟩]

/-- eZ80 16-bit register loads/stores via (HL)/(IX+d)/(IY+d)
(table `ld_rr16_table`). -/
structure LdRR16Entry where
  reg : Nat
  load_hl : Nat
  store_hl : Nat
  load_ix : Nat
  store_ix : Nat
  load_iy : Nat
  store_iy : Nat
  deriving Repr, DecidableEq

def ld_rr16_table : List LdRR16Entry :=
  [⟨REG_BC, 0x07, 0x0F, 0x07, 0x0F, 0x07, 0x0F⟩,
   ⟨REG_DE, 0x17, 0x1F, 0x17, 0x1F, 0x17, 0x1F⟩,
   ⟨REG_HL, 0x27, 0x2F, 0x27, 0x2F, 0x27, 0x2F⟩,
   ⟨REG_IX, 0x37, 0x3F, 0x37, 0x3E, 0x31, 0x3D⟩,
   ⟨REG_IY, 0x31, 0x3E, 0x31, 0x3D, 0x37, 0x3E⟩]

/-- `find_ld_rr16`. -/
def find_ld_rr16 (reg : Nat) : Option LdRR16Entry :=
  ld_rr16_table.find? (fun e => e.reg == reg)

/-- `handle_ld`, after both operands have been parsed (the lexing and
comma handling in the C function precede this decision tree).  `none`
models the `asm_error(...); return -1` error paths. -/
def handle_ld (st : AsmSt) (dest src : Operand) : Option AsmSt :=
  -- ============ REG, REG ============
  let tryRegReg : Option (Option AsmSt) :=
    if dest.otype = OP_REG ∧ src.otype = OP_REG then
      let d := get_reg8_code dest.reg
      let s := get_reg8_code src.reg
      if d ≥ 0 ∧ s ≥ 0 then
        let (st1, pr) := emit_index_pfx_if_needed st dest.reg src.reg
        if pr < 0 then some none
        else if pr > 0 ∧
          (((is_ix_half dest.reg ∨ is_iy_half dest.reg) ∧
              (src.reg = REG_H ∨ src.reg = REG_L)) ∨
           ((is_ix_half src.reg ∨ is_iy_half src.reg) ∧
              (dest.reg = REG_H ∨ dest.reg = REG_L))) then some none
        else some (some (emit_byte st1 (0x40 + d.toNat * 8 + s.toNat)))
      else
        match ld_special_pairs.find?
            (fun p => p.dest_reg == dest.reg && p.src_reg == src.reg) with
        | some p =>
          let st1 := if p.pfx ≠ 0 then emit_byte st p.pfx else st
          some (some (emit_byte st1 p.opcode))
        | none => none
    else none
  match tryRegReg with
  | some r => r
  | none =>
  -- ============ REG, IMM ============
  let tryRegImm : Option (Option AsmSt) :=
    if dest.otype = OP_REG ∧ src.otype = OP_IMM then
      let d := get_reg8_code dest.reg
      if d ≥ 0 then
        let st1 := (emit_index_pfx_if_needed st dest.reg REG_NONE).1
        some (some (emit_byte (emit_byte st1 (0x06 + d.toNat * 8)) (byteOf src.value)))
      else
        let dd := get_reg16_dd_code dest.reg
        if dd ≥ 0 then
          let st1 := emit_byte st (0x01 + dd.toNat * 16)
          let st2 := if src.has_symbol then emit_reloc st1 RELOC_ADDR24 src.symbol else st1
          some (some (emit_long st2 (mask24 src.value)))
        else if dest.reg = REG_IX ∨ dest.reg = REG_IY then
          let st1 := emit_byte (emit_idx_reg_pfx st dest.reg) 0x21
          let st2 := if src.has_symbol then emit_reloc st1 RELOC_ADDR24 src.symbol else st1
          some (some (emit_long st2 (mask24 src.value)))
        else none
    else none
  match tryRegImm with
  | some r => r
  | none =>
  -- ============ REG, (HL) ============
  let tryRegIndHL : Option (Option AsmSt) :=
    if dest.otype = OP_REG ∧ src.otype = OP_IND_REG ∧ src.reg = REG_IND_HL then
      match find_ld_rr16 dest.reg with
      | some e => some (some (emit_byte (emit_byte st 0xED) e.load_hl))
      | none =>
        let d := get_reg8_code dest.reg
        if d ≥ 0 then some (some (emit_byte st (0x46 + d.toNat * 8)))
        else none
    else none
  match tryRegIndHL with
  | some r => r
  | none =>
  -- ============ (HL), REG ============
  let tryIndHLReg : Option (Option AsmSt) :=
    if dest.otype = OP_IND_REG ∧ dest.reg = REG_IND_HL ∧ src.otype = OP_REG then
      match find_ld_rr16 src.reg with
      | some e => some (some (emit_byte (emit_byte st 0xED) e.store_hl))
      | none =>
        let s := get_reg8_code src.reg
        if s ≥ 0 then some (some (emit_byte st (0x70 + s.toNat)))
        else none
    else none
  match tryIndHLReg with
  | some r => r
  | none =>
  -- LD (HL), n
  if dest.otype = OP_IND_REG ∧ dest.reg = REG_IND_HL ∧ src.otype = OP_IMM then
    some (emit_byte (emit_byte st 0x36) (byteOf src.value))
  else
  -- ============ REG, (IX+d)/(IY+d) ============
  let tryRegIdx : Option (Option AsmSt) :=
    if dest.otype = OP_REG ∧ (src.otype = OP_IX_OFF ∨ src.otype = OP_IY_OFF) then
      let d := get_reg8_code dest.reg
      if d ≥ 0 then
        some (some (emit_byte (emit_byte (emit_idx_off_pfx st src.otype)
          (0x46 + d.toNat * 8)) (byteOf src.value)))
      else
        match find_ld_rr16 dest.reg with
        | some e =>
          some (some (emit_byte (emit_byte (emit_idx_off_pfx st src.otype)
            (if src.otype = OP_IX_OFF then e.load_ix else e.load_iy)) (byteOf src.value)))
        | none => none
    else none
  match tryRegIdx with
  | some r => r
  | none =>
  -- ============ (IX+d)/(IY+d), REG ============
  let tryIdxReg : Option (Option AsmSt) :=
    if (dest.otype = OP_IX_OFF ∨ dest.otype = OP_IY_OFF) ∧ src.otype = OP_REG then
      let s := get_reg8_code src.reg
      if s ≥ 0 then
        some (some (emit_byte (emit_byte (emit_idx_off_pfx st dest.otype)
          (0x70 + s.toNat)) (byteOf dest.value)))
      else
        match find_ld_rr16 src.reg with
        | some e =>
          some (some (emit_byte (emit_byte (emit_idx_off_pfx st dest.otype)
            (if dest.otype = OP_IX_OFF then e.store_ix else e.store_iy)) (byteOf dest.value)))
        | none => none
    else none
  match tryIdxReg with
  | some r => r
  | none =>
  -- LD (IX/IY+d), n
  if (dest.otype = OP_IX_OFF ∨ dest.otype = OP_IY_OFF) ∧ src.otype = OP_IMM then
    some (emit_byte (emit_byte (emit_byte (emit_idx_off_pfx st dest.otype) 0x36)
      (byteOf dest.value)) (byteOf src.value))
  else
  -- ============ LD A, (BC)/(DE) and LD (BC)/(DE), A ============
  if dest.otype = OP_REG ∧ dest.reg = REG_A ∧ src.otype = OP_IND_REG ∧
      src.reg = REG_IND_BC then some (emit_byte st 0x0A)
  else if dest.otype = OP_REG ∧ dest.reg = REG_A ∧ src.otype = OP_IND_REG ∧
      src.reg = REG_IND_DE then some (emit_byte st 0x1A)
  else if dest.otype = OP_IND_REG ∧ src.otype = OP_REG ∧ src.reg = REG_A ∧
      dest.reg = REG_IND_BC then some (emit_byte st 0x02)
  else if dest.otype = OP_IND_REG ∧ src.otype = OP_REG ∧ src.reg = REG_A ∧
      dest.reg = REG_IND_DE then some (emit_byte st 0x12)
  else
  -- ============ LD A, (nn) ============
  if dest.otype = OP_REG ∧ dest.reg = REG_A ∧ src.otype = OP_ADDR then
    let st1 := emit_byte st 0x3A
    let st2 := if src.has_symbol then emit_reloc st1 RELOC_ADDR24 src.symbol else st1
    some (emit_long st2 (mask24 src.value))
  else
  -- ============ LD (nn), A ============
  if dest.otype = OP_ADDR ∧ src.otype = OP_REG ∧ src.reg = REG_A then
    let st1 := emit_byte st 0x32
    let st2 := if dest.has_symbol then emit_reloc st1 RELOC_ADDR24 dest.symbol else st1
    some (emit_long st2 (mask24 dest.value))
  else
  -- ============ LD HL, (nn) ============
  if dest.otype = OP_REG ∧ dest.reg = REG_HL ∧ src.otype = OP_ADDR then
    let st1 := emit_byte st 0x2A
    let st2 := if src.has_symbol then emit_reloc st1 RELOC_ADDR24 src.symbol else st1
    some (emit_long st2 (mask24 src.value))
  else
  -- ============ LD (nn), HL ============
  if dest.otype = OP_ADDR ∧ src.otype = OP_REG ∧ src.reg = REG_HL then
    let st1 := emit_byte st 0x22
    let st2 := if dest.has_symbol then emit_reloc st1 RELOC_ADDR24 dest.symbol else st1
    some (emit_long st2 (mask24 dest.value))
  else
  -- ============ REG, (nn) ============
  let tryRegAddr : Option (Option AsmSt) :=
    if dest.otype = OP_REG ∧ src.otype = OP_ADDR then
      let dd := get_reg16_dd_code dest.reg
      if dd ≥ 0 then
        let st1 := emit_byte (emit_byte st 0xED) (0x4B + dd.toNat * 16)
        let st2 := if src.has_symbol then emit_reloc st1 RELOC_ADDR24 src.symbol else st1
        some (some (emit_long st2 (mask24 src.value)))
      else if dest.reg = REG_IX ∨ dest.reg = REG_IY then
        let st1 := emit_byte (emit_idx_reg_pfx st dest.reg) 0x2A
        let st2 := if src.has_symbol then emit_reloc st1 RELOC_ADDR24 src.symbol else st1
        some (some (emit_long st2 (mask24 src.value)))
      else none
    else none
  match tryRegAddr with
  | some r => r
  | none =>
  -- ============ (nn), REG ============
  let tryAddrReg : Option (Option AsmSt) :=
    if dest.otype = OP_ADDR ∧ src.otype = OP_REG then
      let dd := get_reg16_dd_code src.reg
      if dd ≥ 0 then
        let st1 := emit_byte (emit_byte st 0xED) (0x43 + dd.toNat * 16)
        let st2 := if dest.has_symbol then emit_reloc st1 RELOC_ADDR24 dest.symbol else st1
        some (some (emit_long st2 (mask24 dest.value)))
      else if src.reg = REG_IX ∨ src.reg = REG_IY then
        let st1 := emit_byte (emit_idx_reg_pfx st src.reg) 0x22
        let st2 := if dest.has_symbol then emit_reloc st1 RELOC_ADDR24 dest.symbol else st1
        some (some (emit_long st2 (mask24 dest.value)))
      else none
    else none
  match tryAddrReg with
  | some r => r
  | none => none

/-! ### Expression parser/evaluator (parse_expr_primary / _mul / _add)

The parse trees of the recursive-descent parser are reified as one
inductive: `num`/`dollar`/`ident`/`neg`/`pos`/`paren` are the
primaries, `mul`/`div` the `parse_expr_mul` level and `add`/`sub` the
`parse_expr_add` level (the grammar guarantees the operands of
`mul`/`div` are primaries and the left-nested operands of `add`/`sub`
are at most `mul`-level; a parenthesised sub-expression appears only as
`paren`).  Evaluation mirrors the C out-parameters `symbol_out` /
`has_symbol`: primaries and the `mul` level only ever *set* the pair
(so the incoming pair is threaded through), while `parse_expr_add`
starts from fresh local buffers and *overwrites* the caller's pair
with its own result — hence `paren`, `add` and `sub` ignore the
incoming pair. -/

inductive Expr where
  | num (v : Int)          -- TOK_NUMBER / TOK_CHAR
  | dollar                 -- `$` = current PC
  | ident (name : String)
  | neg (e : Expr)
  | pos (e : Expr)
  | paren (e : Expr)
  | mul (a b : Expr)
  | div (a b : Expr)
  | add (a b : Expr)
  | sub (a b : Expr)

/-- `symbol_is_local`: a label whose first character is `@`. -/
def symbol_is_local (name : String) : Bool :=
  match name.data with
  | c :: _ => c = '@'
  | [] => false

/-- `symbol_mangle_local`: append `:scope`. -/
def symbol_mangle_local (st : AsmSt) (name : String) : String :=
  name ++ ":" ++ toString st.local_scope

/-- Result of expression evaluation: value, the tracked-symbol pair and
the state (only `errors` can change during evaluation). -/
structure EvRes where
  val : Int
  hasSym : Bool
  sym : String
  st : AsmSt

/-- The expression evaluator.  `h`/`s` are the incoming contents of the
caller's `has_symbol`/`symbol_out` buffers.  Division by zero reports
an error and skips the division (`val /= rhs` is not executed). -/
def eval_expr : Expr → AsmSt → Bool → String → EvRes
  | .num v, st, h, s => ⟨v, h, s, st⟩
  | .dollar, st, h, s => ⟨(st.pc : Int), h, s, st⟩
  | .ident name, st, h, s =>
    let lookup_name := if symbol_is_local name then symbol_mangle_local st name else name
    match symbol_find st lookup_name with
    | some sym =>
      if sym.defined then
        if sym.sect ≠ 0 then ⟨(sym.value : Int), true, lookup_name, st⟩
        else ⟨(sym.value : Int), h, s, st⟩
      else if sym.flags = SYM_EXT then ⟨0, true, lookup_name, st⟩
      else if st.pass = 1 then ⟨0, true, lookup_name, st⟩
      else ⟨0, h, s, asm_error st⟩
    | none =>
      if st.pass = 1 then ⟨0, true, lookup_name, st⟩
      else ⟨0, h, s, asm_error st⟩
  | .neg e, st, h, s =>
    let r := eval_expr e st h s
    ⟨-r.val, r.hasSym, r.sym, r.st⟩
  | .pos e, st, h, s => eval_expr e st h s
  | .paren e, st, _, _ => eval_expr e st false ""
  | .mul a b, st, h, s =>
    let r1 := eval_expr a st h s
    let r2 := eval_expr b r1.st r1.hasSym r1.sym
    ⟨r1.val * r2.val, r2.hasSym, r2.sym, r2.st⟩
  | .div a b, st, h, s =>
    let r1 := eval_expr a st h s
    let r2 := eval_expr b r1.st r1.hasSym r1.sym
    if r2.val = 0 then ⟨r1.val, r2.hasSym, r2.sym, asm_error r2.st⟩
    else ⟨r1.val.tdiv r2.val, r2.hasSym, r2.sym, r2.st⟩
  | .add a b, st, _, _ =>
    let r1 := eval_expr a st false ""
    let r2 := eval_expr b r1.st false ""
    if r2.hasSym ∧ ¬ r1.hasSym then ⟨r1.val + r2.val, true, r2.sym, r2.st⟩
    else ⟨r1.val + r2.val, r1.hasSym, r1.sym, r2.st⟩
  | .sub a b, st, _, _ =>
    let r1 := eval_expr a st false ""
    let r2 := eval_expr b r1.st false ""
    if r1.hasSym ∧ r2.hasSym then
      match symbol_find r2.st r1.sym, symbol_find r2.st r2.sym with
      | some lsym, some rsym =>
        if lsym.sect = rsym.sect ∧ lsym.sect ≠ 0 then
          ⟨r1.val - r2.val, false, "", r2.st⟩
        else ⟨r1.val - r2.val, true, r1.sym, r2.st⟩
      | _, _ => ⟨r1.val - r2.val, true, r1.sym, r2.st⟩
    else if r2.hasSym ∧ ¬ r1.hasSym then ⟨r1.val - r2.val, true, r2.sym, r2.st⟩
    else ⟨r1.val - r2.val, r1.hasSym, r1.sym, r2.st⟩

/-- `parse_expression`. -/
def parse_expression (st : AsmSt) (e : Expr) : EvRes := eval_expr e st false ""

/-! ### Directives (part_000: ez80dir.c) -/

/-- C `int`→`unsigned int` conversion (mod 2^32). -/
def u32ofInt (v : Int) : Nat := (v % 4294967296).toNat

/-- The `for (i = 0; i < count; i++) emit_byte(...)` loop body. -/
def emit_repeat (st : AsmSt) : Nat → Nat → AsmSt
  | 0, _ => st
  | n + 1, b => emit_repeat (emit_byte st b) n b

/-- `dir_equ` (after the label has been isolated by `asm_line`):
relocatable RHS is an error only in pass 2 (pass 1 silently uses 0);
the symbol is defined in the absolute section. -/
def dir_equ (st : AsmSt) (label : String) (e : Expr) : AsmSt × Int :=
  if label = "" then (asm_error st, -1)
  else
    let r := parse_expression st e
    if r.hasSym ∧ r.st.pass = 2 then (asm_error r.st, -1)
    else
      let value : Int := if r.hasSym then 0 else r.val
      let saved := r.st.current_section
      let st2 := { r.st with current_section := 0 }
      let (st3, _) := symbol_define st2 label (u32ofInt value)
      ({ st3 with current_section := saved }, 0)

/-- `dir_ds`: fill `count` bytes (signed loop bound: a non-positive
count emits nothing). -/
def dir_ds (st : AsmSt) (e : Expr) (fillE : Option Expr) : AsmSt × Int :=
  let r := parse_expression st e
  if r.hasSym then (asm_error r.st, -1)
  else
    let (fill, st1) :=
      match fillE with
      | some fe => let rf := parse_expression r.st fe; (rf.val, rf.st)
      | none => ((0 : Int), r.st)
    (emit_repeat st1 r.val.toNat (byteOf fill), 0)

/-- One `dl` operand: record a relocation if the expression carries a
symbol, then emit the 24-bit datum. -/
def dir_dl_one (st : AsmSt) (e : Expr) : AsmSt :=
  let r := parse_expression st e
  let st1 := if r.hasSym then emit_reloc r.st RELOC_ADDR24 r.sym else r.st
  emit_long st1 (mask24 r.val)

/-- `dir_dl` over its comma-separated operand list. -/
def dir_dl (st : AsmSt) (es : List Expr) : AsmSt :=
  es.foldl dir_dl_one st

/-- Escape processing performed by `lexer_next` on the characters
between the quotes of a string literal (the token's `text` buffer
content, before the terminating NUL is appended). -/
def lex_string_escapes : List Char → List Char
  | [] => []
  | '\\' :: c :: rest =>
    (match c with
     | 'n' => Char.ofNat 10
     | 'r' => Char.ofNat 13
     | 't' => Char.ofNat 9
     | '0' => Char.ofNat 0
     | '\\' => '\\'
     | '"' => '"'
     | other => other) :: lex_string_escapes rest
  | ['\\'] => ['\\']
  | c :: rest => c :: lex_string_escapes rest

/-- The string arm of `dir_db`: `for (p = text; *p; p++) emit_byte(*p)`
over the NUL-terminated token buffer, i.e. emission stops at the first
NUL character stored in the buffer. -/
def db_emit_string (st : AsmSt) (chars : List Char) : AsmSt :=
  (chars.takeWhile (fun c => c ≠ Char.ofNat 0)).foldl
    (fun s c => emit_byte s c.toNat) st

/-! ### Line and pass driver (asm_line / asm_pass / asm_file)

Lines are represented post-lexing: the label/mnemonic split performed
by `asm_line` is encoded in the constructor. -/

inductive LineStmt where
  | equLine (label : String) (e : Expr)          -- `label equ e` / `label = e`
  | dsLine (e : Expr) (fillE : Option Expr)     -- `ds e [, fill]`
  | dlLine (es : List Expr)                      -- `dl e, ...`
  | dbStringLine (chars : List Char)              -- `db "..."` (single string operand)

/-- `asm_line` for the statement forms above.  On an equ-line the label
is not defined at the PC; `try_equ_directive` dispatches to `dir_equ`. -/
def asm_line_model (st : AsmSt) : LineStmt → AsmSt
  | .equLine label e => (dir_equ st label e).1
  | .dsLine e f => (dir_ds st e f).1
  | .dlLine es => dir_dl st es
  | .dbStringLine chars => db_emit_string st chars

/-- `asm_pass`: process all lines. -/
def asm_pass_model (st : AsmSt) (lines : List LineStmt) : AsmSt :=
  lines.foldl asm_line_model st

/-- The pass-1 state reset performed by `asm_file` (also clears the
relocation stream counter). -/
def pass1_init (st : AsmSt) : AsmSt :=
  { st with pass := 1, pc := 0, code_size := 0, data_size := 0, bss_size := 0,
            relocs := [], current_section := SECT_CODE, local_scope := 0,
            code_pc := 0, data_pc := 0, bss_pc := 0 }

/-- The pass-2 state reset performed by `asm_file` (note: `bss_size` is
not reset, matching the C code; it is still 0 there because pass 1
never increments it). -/
def pass2_init (st : AsmSt) : AsmSt :=
  { st with pass := 2, pc := 0, code_size := 0, data_size := 0,
            relocs := [], current_section := SECT_CODE, local_scope := 0,
            code_pc := 0, data_pc := 0, bss_pc := 0 }

/-- `asm_file`: run pass 1, then pass 2 over the same source (the C
code only runs pass 2 when pass 1 reported no errors; the theorem using
this checks that condition explicitly).  Returns the states at the end
of pass 1 and pass 2. -/
def asm_file_model (lines : List LineStmt) : AsmSt × AsmSt :=
  let st1 := asm_pass_model (pass1_init {}) lines
  let st2 := asm_pass_model (pass2_init st1) lines
  (st1, st2)

/-! ### Canonical states and operand builders used in the theorems -/

/-- `asm_init` result: fresh state, pass 1, CODE section. -/
def asmInit : AsmSt := {}

/-- A pass-2 state at the start of the CODE stream (the state in which
instruction encodings are compared). -/
def asmP2 : AsmSt := { pass := 2, current_section := SECT_CODE }

def opReg (r : Nat) : Operand := { otype := OP_REG, reg := r }

def opIndHL : Operand := { otype := OP_IND_REG, reg := REG_IND_HL }

def opIxOff (d : Int) : Operand := { otype := OP_IX_OFF, value := d }

def opIyOff (d : Int) : Operand := { otype := OP_IY_OFF, value := d }

/-! ## Linker (src/ld/ld.c)

`uint24` is `unsigned int` (32-bit on the build hosts), so unsigned
arithmetic wraps modulo 2^32; `uadd`/`usub` make that explicit. -/

namespace Ld

def M32 : Nat := 4294967296

/-- Unsigned 32-bit addition. -/
def uadd (a b : Nat) : Nat := (a + b) % M32

/-- Unsigned 32-bit subtraction (the stored operands are `< M32`). -/
def usub (a b : Nat) : Nat := (a + M32 - b) % M32

/-- One character lowered the way `str_casecmp` does it: add 32 to
`'A'..'Z'`, numeric value otherwise. -/
def lcNat (c : Char) : Nat :=
  if 65 ≤ c.toNat ∧ c.toNat ≤ 90 then c.toNat + 32 else c.toNat

/-- Case-insensitive equality (`str_casecmp(a,b) == 0`): the lowered
character sequences agree. -/
def eqNoCase (a b : String) : Bool := a.data.map lcNat == b.data.map lcNat

/-- Per-object section info (struct ObjectInfo, the fields used by
layout). -/
structure LObjInfo where
  code_size : Nat := 0
  data_size : Nat := 0
  bss_size : Nat := 0
  code_base : Nat := 0
  data_base : Nat := 0
  bss_base : Nat := 0
  deriving Repr, DecidableEq

/-- Global symbol entry (struct GlobalSymbol); `obj_index` is
`LINKER_DEFINED = -1` for injected symbols. -/
structure LGlobal where
  name : String
  value : Nat
  sect : Nat
  obj_index : Int
  deriving Repr, DecidableEq

/-- Linker state (struct LinkerState), restricted to layout and symbol
resolution. -/
structure LdState where
  objects : List LObjInfo := []
  symbols : List LGlobal := []
  base_addr : Nat := 0
  total_code : Nat := 0
  total_data : Nat := 0
  total_bss : Nat := 0
  errors : Nat := 0
  deriving Repr, DecidableEq

/-- `find_global`: case-insensitive lookup. -/
def find_global (ls : LdState) (name : String) : Option LGlobal :=
  ls.symbols.find? (fun s => eqNoCase s.name name)

/-- `add_global`: duplicate names and a full table are errors (the
symbol is not added). -/
def add_global (ls : LdState) (name : String) (value : Nat) (sect : Nat)
    (obj_index : Int) : LdState :=
  match find_global ls name with
  | some _ => { ls with errors := ls.errors + 1 }
  | none =>
    if ls.symbols.length ≥ 2048 then { ls with errors := ls.errors + 1 }
    else { ls with symbols := ls.symbols ++
            [{ name := name, value := value, sect := sect, obj_index := obj_index }] }

/-- First layout loop of `resolve_symbols`: assign `code_base`
sequentially; returns the updated objects and the final `code_addr`. -/
def assign_code : Nat → List LObjInfo → List LObjInfo × Nat
  | addr, [] => ([], addr)
  | addr, o :: rest =>
    let (rest1, fin) := assign_code (uadd addr o.code_size) rest
    ({ o with code_base := addr } :: rest1, fin)

/-- Second layout loop: `data_base`. -/
def assign_data : Nat → List LObjInfo → List LObjInfo × Nat
  | addr, [] => ([], addr)
  | addr, o :: rest =>
    let (rest1, fin) := assign_data (uadd addr o.data_size) rest
    ({ o with data_base := addr } :: rest1, fin)

/-- Third layout loop: `bss_base`. -/
def assign_bss : Nat → List LObjInfo → List LObjInfo × Nat
  | addr, [] => ([], addr)
  | addr, o :: rest =>
    let (rest1, fin) := assign_bss (uadd addr o.bss_size) rest
    ({ o with bss_base := addr } :: rest1, fin)

/-- The symbol-update switch in `resolve_symbols`: add the owning
object's section base to a section-relative value. -/
def make_absolute (objs : List LObjInfo) (s : LGlobal) : LGlobal :=
  if s.sect = SECT_CODE then
    { s with value := uadd s.value ((objs.getD s.obj_index.toNat {}).code_base) }
  else if s.sect = SECT_DATA then
    { s with value := uadd s.value ((objs.getD s.obj_index.toNat {}).data_base) }
  else if s.sect = SECT_BSS then
    { s with value := uadd s.value ((objs.getD s.obj_index.toNat {}).bss_base) }
  else s

/-- `resolve_symbols`: layout, make global symbols absolute, then
inject the six linker-defined symbols. -/
def resolve_symbols (ls : LdState) : LdState :=
  let (objs1, code_fin) := assign_code ls.base_addr ls.objects
  let total_code := usub code_fin ls.base_addr
  let (objs2, data_fin) := assign_data code_fin objs1
  let total_data := usub data_fin code_fin
  let (objs3, bss_fin) := assign_bss data_fin objs2
  let total_bss := usub bss_fin data_fin
  let syms := ls.symbols.map (make_absolute objs3)
  let ls1 :=
    { ls with objects := objs3, symbols := syms, total_code := total_code,
              total_data := total_data, total_bss := total_bss }
  let ls2 := add_global ls1 "__low_code" ls1.base_addr 0 (-1)
  let ls3 := add_global ls2 "__len_code" ls1.total_code 0 (-1)
  let ls4 := add_global ls3 "__low_data" (uadd ls1.base_addr ls1.total_code) 0 (-1)
  let ls5 := add_global ls4 "__len_data" ls1.total_data 0 (-1)
  let ls6 := add_global ls5 "__low_bss"
               (uadd (uadd ls1.base_addr ls1.total_code) ls1.total_data) 0 (-1)
  add_global ls6 "__len_bss" ls1.total_bss 0 (-1)

/-! ### Relocation patching (link_output) -/

/-- View of one object during `link_output`: the assigned bases and the
cached extern table (each entry already resolved through the cached
string table to its name). -/
structure RelObjView where
  code_base : Nat := 0
  data_base : Nat := 0
  bss_base : Nat := 0
  ext_names : List String := []
  deriving Repr, DecidableEq

/-- The in-memory output buffers (`code_buf` / `data_buf`, memory
modelled as functions) plus the error counter. -/
structure LinkBufs where
  code_buf : Nat → Nat
  data_buf : Nat → Nat
  errors : Nat

/-- Read a 24-bit little-endian value at `pos`. -/
def read24 (buf : Nat → Nat) (pos : Nat) : Nat :=
  buf pos + 256 * buf (pos + 1) + 65536 * buf (pos + 2)

/-- Write a value 24-bit little-endian at `pos` (each byte masked). -/
def write24 (buf : Nat → Nat) (pos : Nat) (v : Nat) : Nat → Nat :=
  fun k =>
    if k = pos then v % 256
    else if k = pos + 1 then v / 256 % 256
    else if k = pos + 2 then v / 65536 % 256
    else buf k

/-- The target-address computation for one relocation record:
`none` collects the error cases (unresolvable external, bad extern
index or name offset, invalid target section). -/
def reloc_target (ls : LdState) (obj : RelObjView) (r : RelocRec) : Option Nat :=
  if r.target_sect = 0 then
    match obj.ext_names.get? r.ext_index with
    | none => none
    | some nm =>
      match find_global ls nm with
      | none => none
      | some sym => some sym.value
  else if r.target_sect = SECT_CODE then some obj.code_base
  else if r.target_sect = SECT_DATA then some obj.data_base
  else if r.target_sect = SECT_BSS then some obj.bss_base
  else none

/-- Processing of one relocation record in `link_output`: compute the
target address, bound-check the patch site, read the existing 24-bit
value, add, write back.  Out-of-range patch sites are skipped without
touching the error counter. -/
def apply_reloc (ls : LdState) (obj : RelObjView) (r : RelocRec)
    (bufs : LinkBufs) : LinkBufs :=
  match reloc_target ls obj r with
  | none => { bufs with errors := bufs.errors + 1 }
  | some target_addr =>
    if r.sect = SECT_CODE then
      let patch_pos := usub obj.code_base ls.base_addr + r.offset
      if patch_pos + 2 < ls.total_code then
        let existing := read24 bufs.code_buf patch_pos
        { bufs with code_buf := write24 bufs.code_buf patch_pos (uadd target_addr existing) }
      else bufs
    else if r.sect = SECT_DATA then
      let patch_pos := usub (usub obj.data_base ls.base_addr) ls.total_code + r.offset
      if patch_pos + 2 < ls.total_data then
        let existing := read24 bufs.data_buf patch_pos
        { bufs with data_buf := write24 bufs.data_buf patch_pos (uadd target_addr existing) }
      else bufs
    else bufs

/-! ### Selective library loading (process_libraries)

The file I/O of the C code is abstracted away: a library object is its
exported-name list and extern-name list plus the `loaded` flag; a
loaded object contributes its externs to the undefined-set computation
and its exports to the global table (`load_object_at`). -/

/-- Library object entry (struct LibObject together with the symbol
and extern tables that the C code reads back from the file). -/
structure CLibObj where
  exports : List String := []
  externs : List String := []
  loaded : Bool := false
  deriving Repr, DecidableEq

/-- struct LibraryInfo. -/
structure CLib where
  objs : List CLibObj := []
  deriving Repr, DecidableEq

/-- The linker state as seen by `process_libraries`: the externs tables
of the loaded objects (in load order), the global symbol names, and the
scanned libraries. -/
structure LnkSt where
  objExterns : List (List String) := []
  globals : List String := []
  libs : List CLib := []
  deriving Repr, DecidableEq

/-- `find_global` on names only. -/
def known (ls : LnkSt) (n : String) : Bool := ls.globals.any (eqNoCase n)

/-- `add_global` for one exported name: duplicates are an error and are
not added. -/
def add_global_name (gs : List String) (n : String) : List String :=
  if gs.any (eqNoCase n) then gs else gs ++ [n]

/-- `load_object_at` (the parts visible to the loading loop): register
the object's exports and remember its externs table. -/
def load_lib_object (ls : LnkSt) (o : CLibObj) : LnkSt :=
  { ls with globals := o.exports.foldl add_global_name ls.globals,
            objExterns := ls.objExterns ++ [o.externs] }

/-- Collect the undefined externals of all loaded objects, de-duplicated,
in discovery order (the `num_undefined` accumulation loop). -/
def collect_undef (ls : LnkSt) : List String :=
  ls.objExterns.foldl
    (fun acc exts =>
      exts.foldl
        (fun acc n =>
          if known ls n then acc
          else if acc.any (eqNoCase n) then acc
          else acc ++ [n]) acc) []

/-- Does this library object export any currently-undefined name?
(`found_match` scan.) -/
def obj_matches (undef : List String) (o : CLibObj) : Bool :=
  o.exports.any (fun e => undef.any (eqNoCase e))

/-- Scan the objects of one library (`for (j = 0; ...)`): skip loaded
objects and objects without exports, load every object that defines a
needed symbol.  Returns the updated state, the updated object list,
the `loaded_any` contribution, and the load events `(lib, obj index)`. -/
def scan_objs (undef : List String) (li : Nat) (ls : LnkSt) (idx : Nat) :
    List CLibObj → LnkSt × List CLibObj × Bool × List (Nat × Nat)
  | [] => (ls, [], false, [])
  | o :: rest =>
    if o.loaded then
      let (ls1, rest1, any1, evs) := scan_objs undef li ls (idx + 1) rest
      (ls1, o :: rest1, any1, evs)
    else if o.exports.isEmpty then
      -- num_symbols == 0 || strtab_size == 0: continue
      let (ls1, rest1, any1, evs) := scan_objs undef li ls (idx + 1) rest
      (ls1, o :: rest1, any1, evs)
    else if obj_matches undef o then
      let ls1 := load_lib_object ls o
      let (ls2, rest1, _, evs) := scan_objs undef li ls1 (idx + 1) rest
      (ls2, { o with loaded := true } :: rest1, true, (li, idx) :: evs)
    else
      let (ls1, rest1, any1, evs) := scan_objs undef li ls (idx + 1) rest
      (ls1, o :: rest1, any1, evs)

/-- Scan all libraries (`for (lib_idx = 0; ...)`). -/
def scan_libs (undef : List String) (li : Nat) (ls : LnkSt) :
    List CLib → LnkSt × List CLib × Bool × List (Nat × Nat)
  | [] => (ls, [], false, [])
  | lib :: rest =>
    let (ls1, objs1, any1, evs1) := scan_objs undef li ls 0 lib.objs
    let (ls2, rest1, any2, evs2) := scan_libs undef (li + 1) ls1 rest
    (ls2, { objs := objs1 } :: rest1, any1 || any2, evs1 ++ evs2)

/-- One iteration of the `do { ... } while (loaded_any)` loop: collect
the undefined set; if it is empty break immediately, otherwise scan the
libraries against it. -/
def lib_pass (ls : LnkSt) : LnkSt × Bool × List (Nat × Nat) :=
  let undef := collect_undef ls
  if undef.isEmpty then (ls, false, [])
  else
    let (ls1, libs1, any, evs) := scan_libs undef 0 ls ls.libs
    ({ ls1 with libs := libs1 }, any, evs)

/-- Number of not-yet-loaded library objects (the termination
measure). -/
def unloadedObjs (ls : LnkSt) : Nat :=
  (ls.libs.map (fun l => (l.objs.filter (fun o => !o.loaded)).length)).sum

/-- The `do/while` loop with explicit fuel (one unit per pass); the C6
theorem shows `unloadedObjs ls + 1` units always suffice.  Returns the
final state and the concatenated load events. -/
def run_loop : Nat → LnkSt → LnkSt × List (Nat × Nat)
  | 0, ls => (ls, [])
  | n + 1, ls =>
    let (ls1, any, evs) := lib_pass ls
    if any then
      let (ls2, evs2) := run_loop n ls1
      (ls2, evs ++ evs2)
    else (ls1, evs)

/-- `process_libraries`. -/
def process_libraries (ls : LnkSt) : LnkSt × List (Nat × Nat) :=
  run_loop (unloadedObjs ls + 1) ls

/-- Lookup of an object's `loaded` flag by event coordinates. -/
def objLoaded (ls : LnkSt) (e : Nat × Nat) : Option Bool :=
  (ls.libs.get? e.1).bind (fun l => (l.objs.get? e.2).map (·.loaded))

/-- Pointwise relation between an object list before and after a
library scan: each entry is unchanged, or was unloaded and is now
loaded. -/
def objsStep (old new : List CLibObj) : Prop :=
  new.length = old.length ∧
  ∀ j : Nat, new.get? j = old.get? j ∨
    ∃ o, old.get? j = some o ∧ o.loaded = false ∧
      new.get? j = some { o with loaded := true }

/-- Lifted to the library list. -/
def libsStep (old new : List CLib) : Prop :=
  new.length = old.length ∧
  ∀ j L, old.get? j = some L →
    ∃ L1, new.get? j = some L1 ∧ objsStep L.objs L1.objs

/-- Event ordering produced by one pass: library index, then object
index. -/
def evLt (a b : Nat × Nat) : Prop := a.1 < b.1 ∨ (a.1 = b.1 ∧ a.2 < b.2)

/-- Position `j` holds an object that this scan flipped from unloaded
to loaded. -/
def objFlip (old new : List CLibObj) (j : Nat) : Prop :=
  ∃ o, old.get? j = some o ∧ o.loaded = false ∧
    new.get? j = some { o with loaded := true }

/-- `objLoaded` on a bare library list. -/
def objLoadedL (libs : List CLib) (e : Nat × Nat) : Option Bool :=
  (libs.get? e.1).bind (fun l => (l.objs.get? e.2).map (·.loaded))

/-- Everything one library scan (`scan_objs`) guarantees: length
preservation, pointwise step, per-event flip evidence, ordered events,
the unloaded count equation, `loaded_any` ↔ events, no-op when nothing
matched, and `libs` untouched. -/
def ScanSpec (undef : List String) (li : Nat) (objs : List CLibObj)
    (ls : LnkSt) (idx : Nat) : Prop :=
  (scan_objs undef li ls idx objs).2.1.length = objs.length ∧
  (∀ j, (scan_objs undef li ls idx objs).2.1.get? j = objs.get? j ∨
    objFlip objs (scan_objs undef li ls idx objs).2.1 j) ∧
  (∀ e, e ∈ (scan_objs undef li ls idx objs).2.2.2 → e.1 = li ∧ idx ≤ e.2 ∧
    objFlip objs (scan_objs undef li ls idx objs).2.1 (e.2 - idx)) ∧
  List.Pairwise (fun a b => a.2 < b.2) (scan_objs undef li ls idx objs).2.2.2 ∧
  ((scan_objs undef li ls idx objs).2.1.filter (fun o => !o.loaded)).length +
      (scan_objs undef li ls idx objs).2.2.2.length =
    (objs.filter (fun o => !o.loaded)).length ∧
  ((scan_objs undef li ls idx objs).2.2.1 = false ↔
    (scan_objs undef li ls idx objs).2.2.2 = []) ∧
  ((scan_objs undef li ls idx objs).2.2.1 = false →
    (scan_objs undef li ls idx objs).1 = ls ∧
    (scan_objs undef li ls idx objs).2.1 = objs) ∧
  (scan_objs undef li ls idx objs).1.libs = ls.libs

/-- The same guarantees lifted over all libraries (`scan_libs`). -/
def LibsSpec (undef : List String) (libs : List CLib) (ls : LnkSt)
    (li : Nat) : Prop :=
  (scan_libs undef li ls libs).2.1.length = libs.length ∧
  (∀ j L, libs.get? j = some L → ∃ L1,
    (scan_libs undef li ls libs).2.1.get? j = some L1 ∧ objsStep L.objs L1.objs) ∧
  (∀ e, e ∈ (scan_libs undef li ls libs).2.2.2 → li ≤ e.1 ∧
    ∃ L L1, libs.get? (e.1 - li) = some L ∧
      (scan_libs undef li ls libs).2.1.get? (e.1 - li) = some L1 ∧
      objFlip L.objs L1.objs e.2) ∧
  List.Pairwise evLt (scan_libs undef li ls libs).2.2.2 ∧
  ((scan_libs undef li ls libs).2.1.map
      (fun l => (l.objs.filter (fun o => !o.loaded)).length)).sum +
    (scan_libs undef li ls libs).2.2.2.length =
  (libs.map (fun l => (l.objs.filter (fun o => !o.loaded)).length)).sum ∧
  ((scan_libs undef li ls libs).2.2.1 = false ↔
    (scan_libs undef li ls libs).2.2.2 = []) ∧
  ((scan_libs undef li ls libs).2.2.1 = false →
    (scan_libs undef li ls libs).1 = ls ∧
    (scan_libs undef li ls libs).2.1 = libs) ∧
  (scan_libs undef li ls libs).1.libs = ls.libs

end Ld

/-! ### Inputs used by the claim theorems and witnesses -/

/-- The pass-1-clean source whose per-section PCs differ between the
two passes:
```
c       equ later
        ds c
later   equ 5
```
(`later` is a forward reference: in pass 1 `c` is silently defined as
0, in pass 2 as 5, so `ds c` reserves 0 bytes in pass 1 and 5 bytes in
pass 2.) -/
def c2prog : List LineStmt :=
  [ .equLine "c" (Expr.ident "later"),
    .dsLine (Expr.ident "c") none,
    .equLine "later" (Expr.num 5) ]

/-- The symbol-table mutations available during assembly (calls to
`symbol_define` / `symbol_set_export` / `symbol_set_extern`, plus the
section/pass changes performed by `dir_section` and `asm_file`). -/
inductive SymOp where
  | defineOp (name : String) (value : Nat)
  | exportOp (name : String)
  | xrefOp (name : String)
  | sectOp (sect : Nat)
  | passOp (p : Nat)

def apply_sym_op (st : AsmSt) : SymOp → AsmSt
  | .defineOp n v => (symbol_define st n v).1
  | .exportOp n => (symbol_set_export st n).1
  | .xrefOp n => (symbol_set_xref st n).1
  | .sectOp s => { st with current_section := s }
  | .passOp p => { st with pass := p }

/-- Any reachable symbol-table state. -/
def run_sym_ops (ops : List SymOp) : AsmSt := ops.foldl apply_sym_op asmInit

/-- Every extern-flagged symbol is undefined. -/
def ExtUndef (st : AsmSt) : Prop :=
  ∀ s ∈ st.symbols, s.flags = SYM_EXT → s.defined = false

/-- Symbol names are pairwise distinct (holds in every reachable
state; needed because updates address symbols by name). -/
def NamesNodup (st : AsmSt) : Prop := (st.symbols.map (·.name)).Nodup

/-- Witness state for C5: two defined CODE-section symbols. -/
def w5st : AsmSt :=
  { pass := 2, current_section := SECT_CODE,
    symbols := [ { name := "x", value := 7, sect := SECT_CODE, flags := SYM_LOCAL,
                   defined := true, pass1_value := 7 },
                 { name := "y", value := 3, sect := SECT_CODE, flags := SYM_LOCAL,
                   defined := true, pass1_value := 3 } ] }

/-- `x - y` as parsed by the expression parser. -/
def w5expr : Expr := Expr.sub (Expr.ident "x") (Expr.ident "y")

/-- Witness linker state for C3 (spec scenario 5): two objects with
code sizes 0x10 and 0x20, base address 0x40000, one exported CODE
symbol in the second object. -/
def w3ls : Ld.LdState :=
  { objects := [ { code_size := 0x10 }, { code_size := 0x20 } ],
    symbols := [ { name := "m", value := 4, sect := SECT_CODE, obj_index := 1 } ],
    base_addr := 0x40000 }

/-- Witness object view for C4. -/
def w4obj : Ld.RelObjView := { code_base := 0x40000, ext_names := ["_printf"] }

/-- Witness linker state for C4. -/
def w4ls : Ld.LdState :=
  { base_addr := 0x40000, total_code := 16,
    symbols := [ { name := "_printf", value := 0x40008, sect := SECT_CODE, obj_index := 0 } ] }

/-- Witness buffers for C4: code byte 0 is 5, all else 0. -/
def w4bufs : Ld.LinkBufs :=
  { code_buf := fun k => if k = 0 then 5 else 0, data_buf := fun _ => 0, errors := 0 }

/-- An in-range code relocation record. -/
def w4rec : RelocRec :=
  { offset := 0, sect := SECT_CODE, rtype := RELOC_ADDR24, target_sect := SECT_CODE,
    ext_index := 0 }

/-- Witness linker state for C6: one loaded object needing `x`, a
library whose first three objects form a need-chain and whose fourth is
irrelevant. -/
def w6ls : Ld.LnkSt :=
  { objExterns := [["x"]], globals := [],
    libs := [ { objs := [ { exports := ["x"], externs := ["y"] },
                          { exports := ["y"], externs := ["z"] },
                          { exports := ["z"] },
                          { exports := ["unused"] } ] } ] }

/-- A closed linker state for the C6 idempotence witness. -/
def w6closed : Ld.LnkSt :=
  { objExterns := [["x"]], globals := ["x"],
    libs := [ { objs := [ { exports := ["unused"] } ] } ] }

end DeepCasm
namespace DeepCasm

/-! ## Helper lemmas: expression evaluation only touches `errors` -/

theorem frame_trans {st x y : AsmSt} (h1 : x = { st with errors := x.errors })
    (h2 : y = { x with errors := y.errors }) :
    y = { st with errors := y.errors } := by rw [h2, h1]

theorem frame_error {st x : AsmSt} (h1 : x = { st with errors := x.errors }) :
    asm_error x = { st with errors := (asm_error x).errors } := by
  simp only [asm_error]; rw [h1]

theorem eval_expr_frame : ∀ (e : Expr) (st : AsmSt) (h : Bool) (s : String),
    (eval_expr e st h s).st = { st with errors := (eval_expr e st h s).st.errors }
  | .num v, st, h, s => rfl
  | .dollar, st, h, s => rfl
  | .ident name, st, h, s => by
      simp only [eval_expr]
      split
      · split
        · split <;> rfl
        · split
          · rfl
          · split
            · rfl
            · exact frame_error rfl
      · split
        · rfl
        · exact frame_error rfl
  | .neg e, st, h, s => eval_expr_frame e st h s
  | .pos e, st, h, s => eval_expr_frame e st h s
  | .paren e, st, _, _ => eval_expr_frame e st false ""
  | .mul a b, st, h, s =>
      frame_trans (eval_expr_frame a st h s)
        (eval_expr_frame b (eval_expr a st h s).st (eval_expr a st h s).hasSym
          (eval_expr a st h s).sym)
  | .div a b, st, h, s => by
      have hc := frame_trans (eval_expr_frame a st h s)
        (eval_expr_frame b (eval_expr a st h s).st (eval_expr a st h s).hasSym
          (eval_expr a st h s).sym)
      simp only [eval_expr]
      split
      · exact frame_error hc
      · exact hc
  | .add a b, st, h, s => by
      have hc := frame_trans (eval_expr_frame a st false "")
        (eval_expr_frame b (eval_expr a st false "").st false "")
      simp only [eval_expr]
      split
      · exact hc
      · exact hc
  | .sub a b, st, h, s => by
      have hc := frame_trans (eval_expr_frame a st false "")
        (eval_expr_frame b (eval_expr a st false "").st false "")
      simp only [eval_expr]
      split
      · split
        · split
          · exact hc
          · exact hc
        · exact hc
      · split
        · exact hc
        · exact hc

/-! ## C1 -/

/-- C1: for every 16-bit register in {BC, DE, HL, IX, IY}, `handle_ld`
encodes `ld reg,(hl)` as ED plus the table's load opcode, `ld (hl),reg`
as ED plus the store opcode, and the `(ix+d)` / `(iy+d)` forms as DD /
FD, the table opcode for that register and base, then the 8-bit
displacement; the IX row emits 37/3F via (HL), 37/3E via (IX+d), 31/3D
via (IY+d), and the IY row emits 31/3E via (HL), 31/3D via (IX+d),
37/3E via (IY+d). -/
theorem c1_ld_rr16_table : ∀ d : Int,
    (handle_ld asmP2 (opReg REG_BC) opIndHL).map (·.code_bytes) = some [0xED, 0x07] ∧
    (handle_ld asmP2 opIndHL (opReg REG_BC)).map (·.code_bytes) = some [0xED, 0x0F] ∧
    (handle_ld asmP2 (opReg REG_BC) (opIxOff d)).map (·.code_bytes) = some [0xDD, 0x07, (d % 256).toNat] ∧
    (handle_ld asmP2 (opIxOff d) (opReg REG_BC)).map (·.code_bytes) = some [0xDD, 0x0F, (d % 256).toNat] ∧
    (handle_ld asmP2 (opReg REG_BC) (opIyOff d)).map (·.code_bytes) = some [0xFD, 0x07, (d % 256).toNat] ∧
    (handle_ld asmP2 (opIyOff d) (opReg REG_BC)).map (·.code_bytes) = some [0xFD, 0x0F, (d % 256).toNat] ∧
    (handle_ld asmP2 (opReg REG_DE) opIndHL).map (·.code_bytes) = some [0xED, 0x17] ∧
    (handle_ld asmP2 opIndHL (opReg REG_DE)).map (·.code_bytes) = some [0xED, 0x1F] ∧
    (handle_ld asmP2 (opReg REG_DE) (opIxOff d)).map (·.code_bytes) = some [0xDD, 0x17, (d % 256).toNat] ∧
    (handle_ld asmP2 (opIxOff d) (opReg REG_DE)).map (·.code_bytes) = some [0xDD, 0x1F, (d % 256).toNat] ∧
    (handle_ld asmP2 (opReg REG_DE) (opIyOff d)).map (·.code_bytes) = some [0xFD, 0x17, (d % 256).toNat] ∧
    (handle_ld asmP2 (opIyOff d) (opReg REG_DE)).map (·.code_bytes) = some [0xFD, 0x1F, (d % 256).toNat] ∧
    (handle_ld asmP2 (opReg REG_HL) opIndHL).map (·.code_bytes) = some [0xED, 0x27] ∧
    (handle_ld asmP2 opIndHL (opReg REG_HL)).map (·.code_bytes) = some [0xED, 0x2F] ∧
    (handle_ld asmP2 (opReg REG_HL) (opIxOff d)).map (·.code_bytes) = some [0xDD, 0x27, (d % 256).toNat] ∧
    (handle_ld asmP2 (opIxOff d) (opReg REG_HL)).map (·.code_bytes) = some [0xDD, 0x2F, (d % 256).toNat] ∧
    (handle_ld asmP2 (opReg REG_HL) (opIyOff d)).map (·.code_bytes) = some [0xFD, 0x27, (d % 256).toNat] ∧
    (handle_ld asmP2 (opIyOff d) (opReg REG_HL)).map (·.code_bytes) = some [0xFD, 0x2F, (d % 256).toNat] ∧
    (handle_ld asmP2 (opReg REG_IX) opIndHL).map (·.code_bytes) = some [0xED, 0x37] ∧
    (handle_ld asmP2 opIndHL (opReg REG_IX)).map (·.code_bytes) = some [0xED, 0x3F] ∧
    (handle_ld asmP2 (opReg REG_IX) (opIxOff d)).map (·.code_bytes) = some [0xDD, 0x37, (d % 256).toNat] ∧
    (handle_ld asmP2 (opIxOff d) (opReg REG_IX)).map (·.code_bytes) = some [0xDD, 0x3E, (d % 256).toNat] ∧
    (handle_ld asmP2 (opReg REG_IX) (opIyOff d)).map (·.code_bytes) = some [0xFD, 0x31, (d % 256).toNat] ∧
    (handle_ld asmP2 (opIyOff d) (opReg REG_IX)).map (·.code_bytes) = some [0xFD, 0x3D, (d % 256).toNat] ∧
    (handle_ld asmP2 (opReg REG_IY) opIndHL).map (·.code_bytes) = some [0xED, 0x31] ∧
    (handle_ld asmP2 opIndHL (opReg REG_IY)).map (·.code_bytes) = some [0xED, 0x3E] ∧
    (handle_ld asmP2 (opReg REG_IY) (opIxOff d)).map (·.code_bytes) = some [0xDD, 0x31, (d % 256).toNat] ∧
    (handle_ld asmP2 (opIxOff d) (opReg REG_IY)).map (·.code_bytes) = some [0xDD, 0x3D, (d % 256).toNat] ∧
    (handle_ld asmP2 (opReg REG_IY) (opIyOff d)).map (·.code_bytes) = some [0xFD, 0x37, (d % 256).toNat] ∧
    (handle_ld asmP2 (opIyOff d) (opReg REG_IY)).map (·.code_bytes) = some [0xFD, 0x3E, (d % 256).toNat] :=
  fun _ => ⟨rfl, rfl, rfl, rfl, rfl, rfl, rfl, rfl, rfl, rfl, rfl, rfl, rfl, rfl, rfl,
           rfl, rfl, rfl, rfl, rfl, rfl, rfl, rfl, rfl, rfl, rfl, rfl, rfl, rfl, rfl⟩

/-! ## C2 -/

/-- C2 (code bug): `c2prog` assembles with zero errors in both passes,
yet the CODE-section PC at the end of pass 1 is 0 while at the end of
pass 2 it is 5 (and the header byte count `code_size` is 5): the
per-section program counters are not stable across passes. -/
theorem c2_pc_not_stable :
    (asm_file_model c2prog).1.errors = 0 ∧
    (asm_file_model c2prog).1.current_section = SECT_CODE ∧
    (asm_file_model c2prog).1.pc = 0 ∧
    (asm_file_model c2prog).2.errors = 0 ∧
    (asm_file_model c2prog).2.current_section = SECT_CODE ∧
    (asm_file_model c2prog).2.pc = 5 ∧
    (asm_file_model c2prog).2.code_size = 5 ∧
    (asm_file_model c2prog).1.pc ≠ (asm_file_model c2prog).2.pc := by
  refine ⟨rfl, rfl, rfl, rfl, rfl, rfl, rfl, ?_⟩
  decide

/-! ## C7 -/

/-- C7 counterexample: evaluating `7 / 0` reports the division-by-zero
error, but the division yields 7 (the left operand), not 0 as the
claim states. -/
theorem c7_div_by_zero_counterexample :
    (eval_expr (Expr.div (Expr.num 7) (Expr.num 0)) asmInit false "").val = 7 ∧
    (eval_expr (Expr.div (Expr.num 7) (Expr.num 0)) asmInit false "").st.errors = 1 ∧
    (eval_expr (Expr.div (Expr.num 7) (Expr.num 0)) asmInit false "").val ≠ 0 := by
  refine ⟨rfl, rfl, ?_⟩
  decide

/-- C7 (amended): for a division whose right operand evaluates to 0,
the evaluator reports a division-by-zero error and skips the division,
so the result is the left operand's accumulated value (not 0). -/
theorem c7_div_by_zero_amended : ∀ (a b : Expr) (st : AsmSt) (h : Bool) (s : String),
    (eval_expr b (eval_expr a st h s).st (eval_expr a st h s).hasSym (eval_expr a st h s).sym).val = 0 →
    (eval_expr (Expr.div a b) st h s).val = (eval_expr a st h s).val ∧
    (eval_expr (Expr.div a b) st h s).st.errors =
      (eval_expr b (eval_expr a st h s).st (eval_expr a st h s).hasSym
        (eval_expr a st h s).sym).st.errors + 1 := by
  intro a b st h s hz
  simp only [eval_expr]
  rw [if_pos hz]
  exact ⟨rfl, rfl⟩

/-- Witness for `c7_div_by_zero_amended` at `7 / 0`. -/
theorem c7_div_by_zero_amended_witness :
    (eval_expr (Expr.div (Expr.num 7) (Expr.num 0)) asmInit false "").val =
      (eval_expr (Expr.num 7) asmInit false "").val ∧
    (eval_expr (Expr.div (Expr.num 7) (Expr.num 0)) asmInit false "").st.errors =
      (eval_expr (Expr.num 0) (eval_expr (Expr.num 7) asmInit false "").st
        (eval_expr (Expr.num 7) asmInit false "").hasSym
        (eval_expr (Expr.num 7) asmInit false "").sym).st.errors + 1 :=
  c7_div_by_zero_amended (Expr.num 7) (Expr.num 0) asmInit false "" rfl

/-! ## C9 -/

/-- C9 (code bug): lexing the string literal `"a\0b"` stores the three
characters `a`, NUL, `b`, but `db` emits only one byte (97 = `a`)
because emission stops at the first NUL in the token buffer — the byte
count does not equal the character count of the lexed string. -/
theorem c9_db_string_nul_truncated :
    (lex_string_escapes "a\\0b".data).length = 3 ∧
    (db_emit_string asmP2 (lex_string_escapes "a\\0b".data)).code_bytes = [97] ∧
    (db_emit_string asmP2 (lex_string_escapes "a\\0b".data)).code_bytes.length ≠
      (lex_string_escapes "a\\0b".data).length := by
  refine ⟨rfl, rfl, ?_⟩
  decide

/-! ## C10 -/

/-- C10: if the count expression of `ds` evaluates (without a tracked
symbol) to a negative value, the directive emits no bytes and leaves
the PC and all three section size counters unchanged. -/
theorem c10_ds_negative_count : ∀ (st : AsmSt) (e : Expr) (fe : Option Expr),
    (parse_expression st e).hasSym = false → (parse_expression st e).val < 0 →
    (dir_ds st e fe).1.pc = st.pc ∧
    (dir_ds st e fe).1.code_size = st.code_size ∧
    (dir_ds st e fe).1.data_size = st.data_size ∧
    (dir_ds st e fe).1.bss_size = st.bss_size ∧
    (dir_ds st e fe).1.code_bytes = st.code_bytes ∧
    (dir_ds st e fe).1.data_bytes = st.data_bytes := by
  intro st e fe hs hv
  have hz : (parse_expression st e).val.toNat = 0 := Int.toNat_of_nonpos hv.le
  cases fe with
  | none =>
    simp only [dir_ds, hs, Bool.false_eq_true, if_false, hz, emit_repeat]
    rw [show (parse_expression st e).st =
          { st with errors := (parse_expression st e).st.errors } from
        eval_expr_frame e st false ""]
    exact ⟨rfl, rfl, rfl, rfl, rfl, rfl⟩
  | some fe' =>
    simp only [dir_ds, hs, Bool.false_eq_true, if_false, hz, emit_repeat]
    rw [show (parse_expression (parse_expression st e).st fe').st =
          { st with errors := (parse_expression (parse_expression st e).st fe').st.errors } from
        frame_trans (eval_expr_frame e st false "")
          (eval_expr_frame fe' (parse_expression st e).st false "")]
    exact ⟨rfl, rfl, rfl, rfl, rfl, rfl⟩

/-- Witness for `c10_ds_negative_count`: `ds -1` on the initial
state. -/
theorem c10_ds_negative_count_witness :
    (dir_ds asmInit (Expr.neg (Expr.num 1)) none).1.pc = asmInit.pc ∧
    (dir_ds asmInit (Expr.neg (Expr.num 1)) none).1.code_size = asmInit.code_size ∧
    (dir_ds asmInit (Expr.neg (Expr.num 1)) none).1.data_size = asmInit.data_size ∧
    (dir_ds asmInit (Expr.neg (Expr.num 1)) none).1.bss_size = asmInit.bss_size ∧
    (dir_ds asmInit (Expr.neg (Expr.num 1)) none).1.code_bytes = asmInit.code_bytes ∧
    (dir_ds asmInit (Expr.neg (Expr.num 1)) none).1.data_bytes = asmInit.data_bytes :=
  c10_ds_negative_count asmInit (Expr.neg (Expr.num 1)) none rfl (by decide)

end DeepCasm
namespace DeepCasm

/-! ## C5 -/

/-- C5: the subtraction rules of the expression evaluator's symbol
tracking.  (a) If both sides carry symbols that resolve to defined
symbols in the same non-absolute section, the result carries no symbol,
and a `dl` of such a difference appends no relocation record and emits
the constant difference as its 24-bit little-endian datum.  (b) If only
the left side carries a symbol it flows through.  (c) If only the right
side carries a symbol the result is still marked relocatable with that
symbol. -/
theorem c5_sub_symbol_rules :
    (∀ (st : AsmSt) (s1 s2 : String) (y1 y2 : Symb) (sec : Nat),
      st.pass = 2 → st.current_section = SECT_CODE →
      symbol_is_local s1 = false → symbol_is_local s2 = false →
      symbol_find st s1 = some y1 → symbol_find st s2 = some y2 →
      y1.defined = true → y2.defined = true →
      y1.sect = sec → y2.sect = sec → sec ≠ 0 →
      (eval_expr (Expr.sub (Expr.ident s1) (Expr.ident s2)) st false "").hasSym = false ∧
      (eval_expr (Expr.sub (Expr.ident s1) (Expr.ident s2)) st false "").val =
        (y1.value : Int) - (y2.value : Int) ∧
      (dir_dl st [Expr.sub (Expr.ident s1) (Expr.ident s2)]).relocs = st.relocs ∧
      (dir_dl st [Expr.sub (Expr.ident s1) (Expr.ident s2)]).code_bytes =
        st.code_bytes ++ [mask24 ((y1.value : Int) - y2.value) % 256,
                          mask24 ((y1.value : Int) - y2.value) / 256 % 256,
                          mask24 ((y1.value : Int) - y2.value) / 65536 % 256]) ∧
    (∀ (a b : Expr) (st : AsmSt),
      (eval_expr a st false "").hasSym = true →
      (eval_expr b (eval_expr a st false "").st false "").hasSym = false →
      (eval_expr (Expr.sub a b) st false "").hasSym = true ∧
      (eval_expr (Expr.sub a b) st false "").sym = (eval_expr a st false "").sym) ∧
    (∀ (a b : Expr) (st : AsmSt),
      (eval_expr a st false "").hasSym = false →
      (eval_expr b (eval_expr a st false "").st false "").hasSym = true →
      (eval_expr (Expr.sub a b) st false "").hasSym = true ∧
      (eval_expr (Expr.sub a b) st false "").sym =
        (eval_expr b (eval_expr a st false "").st false "").sym) := by
  refine ⟨?_, ?_, ?_⟩
  · intro st s1 s2 y1 y2 sec hp hc hl1 hl2 hf1 hf2 hd1 hd2 hs1 hs2 hne
    have e1 : eval_expr (Expr.ident s1) st false "" = ⟨(y1.value : Int), true, s1, st⟩ := by
      simp [eval_expr, hl1, hf1, hd1, hs1, hne]
    have e2 : eval_expr (Expr.ident s2) st false "" = ⟨(y2.value : Int), true, s2, st⟩ := by
      simp [eval_expr, hl2, hf2, hd2, hs2, hne]
    have esub : eval_expr (Expr.sub (Expr.ident s1) (Expr.ident s2)) st false "" =
        ⟨(y1.value : Int) - (y2.value : Int), false, "", st⟩ := by
      rw [show eval_expr (Expr.sub (Expr.ident s1) (Expr.ident s2)) st false "" =
            (let r1 := eval_expr (Expr.ident s1) st false ""
             let r2 := eval_expr (Expr.ident s2) r1.st false ""
             if r1.hasSym ∧ r2.hasSym then
               match symbol_find r2.st r1.sym, symbol_find r2.st r2.sym with
               | some lsym, some rsym =>
                 if lsym.sect = rsym.sect ∧ lsym.sect ≠ 0 then
                   ⟨r1.val - r2.val, false, "", r2.st⟩
                 else ⟨r1.val - r2.val, true, r1.sym, r2.st⟩
               | _, _ => ⟨r1.val - r2.val, true, r1.sym, r2.st⟩
             else if r2.hasSym ∧ ¬ r1.hasSym then ⟨r1.val - r2.val, true, r2.sym, r2.st⟩
             else ⟨r1.val - r2.val, r1.hasSym, r1.sym, r2.st⟩) from rfl]
      rw [e1]
      dsimp only
      rw [e2]
      simp [hf1, hf2, hs1, hs2, hne]
    refine ⟨by rw [esub], by rw [esub], ?_, ?_⟩
    · simp only [dir_dl, List.foldl, dir_dl_one, parse_expression, esub]
      simp [emit_long, emit_byte, hp, hc]
    · simp only [dir_dl, List.foldl, dir_dl_one, parse_expression, esub]
      simp [emit_long, emit_byte, hp, hc, mask24, List.append_assoc]
  · intro a b st ha hb
    rw [show eval_expr (Expr.sub a b) st false "" =
          (let r1 := eval_expr a st false ""
           let r2 := eval_expr b r1.st false ""
           if r1.hasSym ∧ r2.hasSym then
             match symbol_find r2.st r1.sym, symbol_find r2.st r2.sym with
             | some lsym, some rsym =>
               if lsym.sect = rsym.sect ∧ lsym.sect ≠ 0 then
                 ⟨r1.val - r2.val, false, "", r2.st⟩
               else ⟨r1.val - r2.val, true, r1.sym, r2.st⟩
             | _, _ => ⟨r1.val - r2.val, true, r1.sym, r2.st⟩
           else if r2.hasSym ∧ ¬ r1.hasSym then ⟨r1.val - r2.val, true, r2.sym, r2.st⟩
           else ⟨r1.val - r2.val, r1.hasSym, r1.sym, r2.st⟩) from rfl]
    simp [ha, hb]
  · intro a b st ha hb
    rw [show eval_expr (Expr.sub a b) st false "" =
          (let r1 := eval_expr a st false ""
           let r2 := eval_expr b r1.st false ""
           if r1.hasSym ∧ r2.hasSym then
             match symbol_find r2.st r1.sym, symbol_find r2.st r2.sym with
             | some lsym, some rsym =>
               if lsym.sect = rsym.sect ∧ lsym.sect ≠ 0 then
                 ⟨r1.val - r2.val, false, "", r2.st⟩
               else ⟨r1.val - r2.val, true, r1.sym, r2.st⟩
             | _, _ => ⟨r1.val - r2.val, true, r1.sym, r2.st⟩
           else if r2.hasSym ∧ ¬ r1.hasSym then ⟨r1.val - r2.val, true, r2.sym, r2.st⟩
           else ⟨r1.val - r2.val, r1.hasSym, r1.sym, r2.st⟩) from rfl]
    simp [ha, hb]

/-- Witness for `c5_sub_symbol_rules`: `dl x - y` on `w5st` (both
defined in CODE with values 7 and 3), `x - 2` for flow-through, and
`10 - x` for the RHS-only case. -/
theorem c5_sub_symbol_rules_witness :
    ((eval_expr (Expr.sub (Expr.ident "x") (Expr.ident "y")) w5st false "").hasSym = false ∧
     (eval_expr (Expr.sub (Expr.ident "x") (Expr.ident "y")) w5st false "").val =
       ((7 : Nat) : Int) - ((3 : Nat) : Int) ∧
     (dir_dl w5st [Expr.sub (Expr.ident "x") (Expr.ident "y")]).relocs = w5st.relocs ∧
     (dir_dl w5st [Expr.sub (Expr.ident "x") (Expr.ident "y")]).code_bytes =
       w5st.code_bytes ++ [mask24 (((7 : Nat) : Int) - (3 : Nat)) % 256,
                           mask24 (((7 : Nat) : Int) - (3 : Nat)) / 256 % 256,
                           mask24 (((7 : Nat) : Int) - (3 : Nat)) / 65536 % 256]) ∧
    ((eval_expr (Expr.sub (Expr.ident "x") (Expr.num 2)) w5st false "").hasSym = true ∧
     (eval_expr (Expr.sub (Expr.ident "x") (Expr.num 2)) w5st false "").sym =
       (eval_expr (Expr.ident "x") w5st false "").sym) ∧
    ((eval_expr (Expr.sub (Expr.num 10) (Expr.ident "x")) w5st false "").hasSym = true ∧
     (eval_expr (Expr.sub (Expr.num 10) (Expr.ident "x")) w5st false "").sym =
       (eval_expr (Expr.ident "x") (eval_expr (Expr.num 10) w5st false "").st false "").sym) :=
  ⟨c5_sub_symbol_rules.1 w5st "x" "y"
      { name := "x", value := 7, sect := SECT_CODE, flags := SYM_LOCAL,
        defined := true, pass1_value := 7 }
      { name := "y", value := 3, sect := SECT_CODE, flags := SYM_LOCAL,
        defined := true, pass1_value := 3 }
      SECT_CODE rfl rfl rfl rfl rfl rfl rfl rfl rfl rfl (by decide),
   c5_sub_symbol_rules.2.1 (Expr.ident "x") (Expr.num 2) w5st rfl rfl,
   c5_sub_symbol_rules.2.2 (Expr.num 10) (Expr.ident "x") w5st rfl rfl⟩

end DeepCasm
namespace DeepCasm

/-! ## C8 -/

/-- C8 counterexample: `xref foo` issued while the current section is
CODE (the initial section) creates a symbol with `flags = Extern` whose
section is CODE (1), not Abs (0) — `symbol_set_extern` never resets the
section of the symbol it creates. -/
theorem c8_xref_section_counterexample :
    (symbol_set_xref asmInit "foo").1.symbols =
      [{ name := "foo", value := 0, sect := SECT_CODE, flags := SYM_EXT,
         defined := false, pass1_value := 0 }] ∧
    SECT_CODE ≠ SECT_ABS := by
  refine ⟨rfl, ?_⟩
  decide

theorem find_none_all {st : AsmSt} {n : String}
    (h : symbol_find st n = none) : ∀ s ∈ st.symbols, (s.name == n) = false := by
  intro s hs
  simpa using List.find?_eq_none.mp h s hs

theorem find_unique {st : AsmSt} {n : String} {y : Symb}
    (hnd : NamesNodup st) (h : symbol_find st n = some y) :
    ∀ s ∈ st.symbols, (s.name == n) = true → s = y := by
  intro s hs hsn
  unfold symbol_find at h
  have hy : y ∈ st.symbols := List.mem_of_find?_eq_some h
  have hyn := List.find?_some h
  have h1 : s.name = n := by simpa using hsn
  have h2 : y.name = n := by simpa using hyn
  exact List.inj_on_of_nodup_map hnd hs hy (h1.trans h2.symm)

/-- If the update function keeps every extern-flagged image undefined
on the name-matching symbols, `ExtUndef` survives `symbol_update`. -/
theorem extundef_update {st : AsmSt} {n : String} {f : Symb → Symb}
    (hE : ExtUndef st)
    (hf : ∀ s ∈ st.symbols, (s.name == n) = true →
      (f s).flags = SYM_EXT → (f s).defined = false) :
    ExtUndef (symbol_update st n f) := by
  intro s' hmem hflags
  simp only [symbol_update, List.mem_map] at hmem
  obtain ⟨s, hs, rfl⟩ := hmem
  by_cases hb : (s.name == n) = true
  · rw [if_pos hb] at hflags ⊢
    exact hf s hs hb hflags
  · rw [if_neg hb] at hflags ⊢
    exact hE s hs hflags

theorem names_after_update (st : AsmSt) (n : String) (f : Symb → Symb)
    (hf : ∀ s, (f s).name = s.name) :
    (symbol_update st n f).symbols.map (·.name) = st.symbols.map (·.name) := by
  simp only [symbol_update, List.map_map]
  refine List.map_congr_left (fun s _ => ?_)
  by_cases hb : s.name = n <;> simp [hb, hf]

theorem namesnodup_update {st : AsmSt} {n : String} {f : Symb → Symb}
    (hf : ∀ s, (f s).name = s.name) (hN : NamesNodup st) :
    NamesNodup (symbol_update st n f) := by
  unfold NamesNodup
  rw [names_after_update st n f hf]
  exact hN

/-- Appending a fresh symbol whose name is absent keeps both
invariants (provided the new symbol is not a defined extern). -/
theorem invariants_append {st : AsmSt} {fresh : Symb}
    (hE : ExtUndef st) (hN : NamesNodup st)
    (habs : ∀ s ∈ st.symbols, (s.name == fresh.name) = false)
    (hfl : fresh.flags = SYM_EXT → fresh.defined = false) :
    ExtUndef { st with symbols := st.symbols ++ [fresh] } ∧
    NamesNodup { st with symbols := st.symbols ++ [fresh] } := by
  constructor
  · intro s hs hflags
    rcases List.mem_append.mp hs with h | h
    · exact hE s h hflags
    · rw [List.mem_singleton.mp h] at hflags ⊢
      exact hfl hflags
  · unfold NamesNodup
    simp only [List.map_append, List.map_cons, List.map_nil]
    rw [List.nodup_append]
    refine ⟨hN, List.nodup_singleton _, ?_⟩
    intro a ha
    simp only [List.mem_singleton]
    intro hEq
    obtain ⟨s, hs, rfl⟩ := List.mem_map.mp ha
    have := habs s hs
    rw [hEq] at this
    simp at this

/-- Each symbol-table operation preserves the two invariants. -/
theorem apply_sym_op_invariant (st : AsmSt) (op : SymOp)
    (hE : ExtUndef st) (hN : NamesNodup st) :
    ExtUndef (apply_sym_op st op) ∧ NamesNodup (apply_sym_op st op) := by
  cases op with
  | sectOp s => exact ⟨hE, hN⟩
  | passOp p => exact ⟨hE, hN⟩
  | defineOp n v =>
    simp only [apply_sym_op, symbol_define]
    cases hf : symbol_find st n with
    | some y =>
      simp only []
      split
      · exact ⟨hE, hN⟩
      · split
        · exact ⟨hE, hN⟩
        · next hfl =>
          refine ⟨extundef_update hE ?_, namesnodup_update (fun s => rfl) hN⟩
          intro s hs hb hflags
          have hsy : s = y := find_unique hN hf s hs hb
          exact absurd hflags (by simp only [hsy]; exact hfl)
    | none =>
      by_cases hlen : st.symbols.length ≥ 4096
      · simp only [symbol_add, if_pos hlen]
        exact ⟨hE, hN⟩
      · simp only [symbol_add, if_neg hlen]
        have hstep := @invariants_append st
          { name := n, value := 0, sect := st.current_section,
            flags := SYM_LOCAL, defined := false, pass1_value := 0 }
          hE hN (find_none_all hf) (by intro h; simp [SYM_LOCAL, SYM_EXT] at h)
        refine ⟨extundef_update hstep.1 ?_, namesnodup_update (fun s => rfl) hstep.2⟩
        intro s hs hb hflags
        rcases List.mem_append.mp hs with h | h
        · exact absurd hb (by simp [find_none_all hf s h])
        · rw [List.mem_singleton.mp h] at hflags
          simp [SYM_LOCAL, SYM_EXT] at hflags
  | exportOp n =>
    simp only [apply_sym_op, symbol_set_export]
    cases hf : symbol_find st n with
    | some y =>
      simp only []
      refine ⟨extundef_update hE ?_, namesnodup_update (fun s => rfl) hN⟩
      intro s hs hb hflags
      simp [SYM_EXPORT, SYM_EXT] at hflags
    | none =>
      by_cases hlen : st.symbols.length ≥ 4096
      · simp only [symbol_add, if_pos hlen]
        exact ⟨hE, hN⟩
      · simp only [symbol_add, if_neg hlen]
        have hstep := @invariants_append st
          { name := n, value := 0, sect := st.current_section,
            flags := SYM_LOCAL, defined := false, pass1_value := 0 }
          hE hN (find_none_all hf) (by intro h; simp [SYM_LOCAL, SYM_EXT] at h)
        refine ⟨extundef_update hstep.1 ?_, namesnodup_update (fun s => rfl) hstep.2⟩
        intro s hs hb hflags
        simp [SYM_EXPORT, SYM_EXT] at hflags
  | xrefOp n =>
    simp only [apply_sym_op, symbol_set_xref]
    cases hf : symbol_find st n with
    | some y =>
      simp only []
      split
      · exact ⟨hE, hN⟩
      · next hdef =>
        have hgoal : ExtUndef (symbol_update st n (fun s => { s with flags := SYM_EXT })) ∧
            NamesNodup (symbol_update st n (fun s => { s with flags := SYM_EXT })) := by
          refine ⟨extundef_update hE ?_, namesnodup_update (fun s => rfl) hN⟩
          intro s hs hb hflags
          have hsy : s = y := find_unique hN hf s hs hb
          simp only [hsy]
          simpa using hdef
        split
        · exact hgoal
        · split
          · exact hgoal
          · exact hgoal
    | none =>
      by_cases hlen : st.symbols.length ≥ 4096
      · simp only [symbol_add, if_pos hlen]
        exact ⟨hE, hN⟩
      · simp only [symbol_add, if_neg hlen]
        have hstep := @invariants_append st
          { name := n, value := 0, sect := st.current_section,
            flags := SYM_LOCAL, defined := false, pass1_value := 0 }
          hE hN (find_none_all hf) (by intro h; simp [SYM_LOCAL, SYM_EXT] at h)
        have hgoal : ExtUndef (symbol_update
              { st with symbols := st.symbols ++
                [{ name := n, value := 0, sect := st.current_section,
                   flags := SYM_LOCAL, defined := false, pass1_value := 0 }] }
              n (fun s => { s with flags := SYM_EXT })) ∧
            NamesNodup (symbol_update
              { st with symbols := st.symbols ++
                [{ name := n, value := 0, sect := st.current_section,
                   flags := SYM_LOCAL, defined := false, pass1_value := 0 }] }
              n (fun s => { s with flags := SYM_EXT })) := by
          refine ⟨extundef_update hstep.1 ?_, namesnodup_update (fun s => rfl) hstep.2⟩
          intro s hs hb hflags
          rcases List.mem_append.mp hs with h | h
          · exact absurd hb (by simp [find_none_all hf s h])
          · rw [List.mem_singleton.mp h]
        split
        · exact hgoal
        · split
          · exact hgoal
          · exact hgoal

/-- C8 (amended): every extern-flagged symbol in any reachable symbol
table is undefined; declaring a defined symbol extern is rejected;
defining an extern symbol is rejected; but a symbol created by `xref`
keeps the section that was current when it was created (Abs is not
forced), so "section = Abs" does not hold in general. -/
theorem c8_extern_invariant_amended :
    (∀ ops : List SymOp, ExtUndef (run_sym_ops ops)) ∧
    (∀ (st : AsmSt) (n : String) (v : Nat) (y : Symb),
      symbol_find st n = some y → y.flags = SYM_EXT →
      symbol_define st n v = (asm_error st, -1)) ∧
    (∀ (st : AsmSt) (n : String) (y : Symb),
      symbol_find st n = some y → y.defined = true →
      symbol_set_xref st n = (asm_error st, -1)) ∧
    (∀ (st : AsmSt) (n : String),
      symbol_find st n = none → st.symbols.length < 4096 →
      (symbol_set_xref st n).1.symbols.getLast? =
        some { name := n, value := 0, sect := st.current_section, flags := SYM_EXT,
               defined := false, pass1_value := 0 }) := by
  refine ⟨?_, ?_, ?_, ?_⟩
  · intro ops
    suffices h : ExtUndef (run_sym_ops ops) ∧ NamesNodup (run_sym_ops ops) from h.1
    unfold run_sym_ops
    induction ops using List.reverseRecOn with
    | nil => exact ⟨fun s hs => by simp [asmInit] at hs, by simp [NamesNodup, asmInit]⟩
    | append_singleton ops op ih =>
      rw [List.foldl_append, List.foldl_cons, List.foldl_nil]
      exact apply_sym_op_invariant _ op ih.1 ih.2
  · intro st n v y hf hfl
    simp only [symbol_define, hf]
    split
    · rfl
    · simp [hfl]
  · intro st n y hf hd
    simp only [symbol_set_xref, hf]
    rw [if_pos hd]
  · intro st n hf hlen
    simp only [symbol_set_xref, hf, symbol_add, if_neg (Nat.not_le.mpr hlen)]
    have hlast : (symbol_update
        { st with symbols := st.symbols ++
          [{ name := n, value := 0, sect := st.current_section,
             flags := SYM_LOCAL, defined := false, pass1_value := 0 }] }
        n (fun s => { s with flags := SYM_EXT })).symbols.getLast? =
        some { name := n, value := 0, sect := st.current_section, flags := SYM_EXT,
               defined := false, pass1_value := 0 } := by
      simp only [symbol_update, List.map_append, List.map_cons, List.map_nil]
      rw [List.getLast?_concat]
      simp
    split
    · exact hlast
    · split
      · exact hlast
      · exact hlast

/-- Witness for `c8_extern_invariant_amended`: the invariant after
`xref foo`, the rejection of defining the extern `foo`, the rejection
of `xref` on the defined symbol `bar`, and the section of a fresh
`xref` symbol in the initial (CODE) state. -/
theorem c8_extern_invariant_amended_witness :
    ExtUndef (run_sym_ops [SymOp.xrefOp "foo"]) ∧
    symbol_define (run_sym_ops [SymOp.xrefOp "foo"]) "foo" 3 =
      (asm_error (run_sym_ops [SymOp.xrefOp "foo"]), -1) ∧
    symbol_set_xref (run_sym_ops [SymOp.defineOp "bar" 1]) "bar" =
      (asm_error (run_sym_ops [SymOp.defineOp "bar" 1]), -1) ∧
    (symbol_set_xref asmInit "foo").1.symbols.getLast? =
      some { name := "foo", value := 0, sect := asmInit.current_section, flags := SYM_EXT,
             defined := false, pass1_value := 0 } :=
  ⟨c8_extern_invariant_amended.1 [SymOp.xrefOp "foo"],
   c8_extern_invariant_amended.2.1 (run_sym_ops [SymOp.xrefOp "foo"]) "foo" 3
     { name := "foo", value := 0, sect := SECT_CODE, flags := SYM_EXT,
       defined := false, pass1_value := 0 } (by decide) rfl,
   c8_extern_invariant_amended.2.2.1 (run_sym_ops [SymOp.defineOp "bar" 1]) "bar"
     { name := "bar", value := 1, sect := SECT_CODE, flags := SYM_LOCAL,
       defined := true, pass1_value := 1 } (by decide) rfl,
   c8_extern_invariant_amended.2.2.2 asmInit "foo" rfl (by decide)⟩

end DeepCasm
namespace DeepCasm

namespace Ld

/-! ## Helper lemmas for the linker layout (C3) -/

theorem M32_pos : 0 < M32 := by decide

theorem uadd_lt (a b : Nat) : uadd a b < M32 := Nat.mod_lt _ M32_pos

theorem usub_wrap {b : Nat} (x : Nat) (hb : b < M32) :
    usub ((b + x) % M32) b = x % M32 := by
  unfold usub
  have hbM : b ≤ M32 := le_of_lt hb
  rw [Nat.add_sub_assoc hbM, Nat.mod_add_mod]
  have : b + x + (M32 - b) = x + M32 := by omega
  rw [this, Nat.add_mod_right]

theorem assign_code_get : ∀ (addr : Nat) (objs : List LObjInfo) (i : Nat) (o : LObjInfo),
    addr < M32 → objs.get? i = some o →
    (assign_code addr objs).1.get? i =
      some { o with code_base := (addr + ((objs.take i).map (·.code_size)).sum) % M32 }
  | addr, [], i, o, _, h => by simp at h
  | addr, o' :: rest, 0, o, haddr, h => by
    simp only [List.get?] at h
    cases h
    simp [assign_code, Nat.mod_eq_of_lt haddr]
  | addr, o' :: rest, i + 1, o, haddr, h => by
    simp only [List.get?] at h
    have ih := assign_code_get ((addr + o'.code_size) % M32) rest i o
      (Nat.mod_lt _ M32_pos) h
    simp only [assign_code, uadd, List.get?]
    rw [ih]
    congr 2
    rw [Nat.mod_add_mod]
    congr 1
    simp [Nat.add_assoc]

theorem assign_code_fin : ∀ (addr : Nat) (objs : List LObjInfo), addr < M32 →
    (assign_code addr objs).2 = (addr + (objs.map (·.code_size)).sum) % M32
  | addr, [], h => by simp [assign_code, Nat.mod_eq_of_lt h]
  | addr, o' :: rest, h => by
    simp only [assign_code, uadd]
    rw [assign_code_fin ((addr + o'.code_size) % M32) rest (Nat.mod_lt _ M32_pos)]
    rw [Nat.mod_add_mod]
    congr 1
    simp [Nat.add_assoc]

theorem assign_data_get : ∀ (addr : Nat) (objs : List LObjInfo) (i : Nat) (o : LObjInfo),
    addr < M32 → objs.get? i = some o →
    (assign_data addr objs).1.get? i =
      some { o with data_base := (addr + ((objs.take i).map (·.data_size)).sum) % M32 }
  | addr, [], i, o, _, h => by simp at h
  | addr, o' :: rest, 0, o, haddr, h => by
    simp only [List.get?] at h
    cases h
    simp [assign_data, Nat.mod_eq_of_lt haddr]
  | addr, o' :: rest, i + 1, o, haddr, h => by
    simp only [List.get?] at h
    have ih := assign_data_get ((addr + o'.data_size) % M32) rest i o
      (Nat.mod_lt _ M32_pos) h
    simp only [assign_data, uadd, List.get?]
    rw [ih]
    congr 2
    rw [Nat.mod_add_mod]
    congr 1
    simp [Nat.add_assoc]

theorem assign_data_fin : ∀ (addr : Nat) (objs : List LObjInfo), addr < M32 →
    (assign_data addr objs).2 = (addr + (objs.map (·.data_size)).sum) % M32
  | addr, [], h => by simp [assign_data, Nat.mod_eq_of_lt h]
  | addr, o' :: rest, h => by
    simp only [assign_data, uadd]
    rw [assign_data_fin ((addr + o'.data_size) % M32) rest (Nat.mod_lt _ M32_pos)]
    rw [Nat.mod_add_mod]
    congr 1
    simp [Nat.add_assoc]

theorem assign_bss_get : ∀ (addr : Nat) (objs : List LObjInfo) (i : Nat) (o : LObjInfo),
    addr < M32 → objs.get? i = some o →
    (assign_bss addr objs).1.get? i =
      some { o with bss_base := (addr + ((objs.take i).map (·.bss_size)).sum) % M32 }
  | addr, [], i, o, _, h => by simp at h
  | addr, o' :: rest, 0, o, haddr, h => by
    simp only [List.get?] at h
    cases h
    simp [assign_bss, Nat.mod_eq_of_lt haddr]
  | addr, o' :: rest, i + 1, o, haddr, h => by
    simp only [List.get?] at h
    have ih := assign_bss_get ((addr + o'.bss_size) % M32) rest i o
      (Nat.mod_lt _ M32_pos) h
    simp only [assign_bss, uadd, List.get?]
    rw [ih]
    congr 2
    rw [Nat.mod_add_mod]
    congr 1
    simp [Nat.add_assoc]

theorem assign_bss_fin : ∀ (addr : Nat) (objs : List LObjInfo), addr < M32 →
    (assign_bss addr objs).2 = (addr + (objs.map (·.bss_size)).sum) % M32
  | addr, [], h => by simp [assign_bss, Nat.mod_eq_of_lt h]
  | addr, o' :: rest, h => by
    simp only [assign_bss, uadd]
    rw [assign_bss_fin ((addr + o'.bss_size) % M32) rest (Nat.mod_lt _ M32_pos)]
    rw [Nat.mod_add_mod]
    congr 1
    simp [Nat.add_assoc]

theorem assign_code_map_data : ∀ (addr : Nat) (objs : List LObjInfo),
    (assign_code addr objs).1.map (·.data_size) = objs.map (·.data_size)
  | addr, [] => rfl
  | addr, o' :: rest => by
    simp only [assign_code, uadd, List.map_cons]
    rw [assign_code_map_data ((addr + o'.code_size) % M32) rest]

theorem assign_code_map_bss : ∀ (addr : Nat) (objs : List LObjInfo),
    (assign_code addr objs).1.map (·.bss_size) = objs.map (·.bss_size)
  | addr, [] => rfl
  | addr, o' :: rest => by
    simp only [assign_code, uadd, List.map_cons]
    rw [assign_code_map_bss ((addr + o'.code_size) % M32) rest]

theorem assign_data_map_bss : ∀ (addr : Nat) (objs : List LObjInfo),
    (assign_data addr objs).1.map (·.bss_size) = objs.map (·.bss_size)
  | addr, [] => rfl
  | addr, o' :: rest => by
    simp only [assign_data, uadd, List.map_cons]
    rw [assign_data_map_bss ((addr + o'.data_size) % M32) rest]

theorem add_global_objects (ls : LdState) (n : String) (v sect : Nat) (oi : Int) :
    (add_global ls n v sect oi).objects = ls.objects := by
  unfold add_global
  cases hf : find_global ls n with
  | none => by_cases hl : ls.symbols.length ≥ 2048 <;> simp [hl]
  | some y => rfl

theorem add_global_base (ls : LdState) (n : String) (v sect : Nat) (oi : Int) :
    (add_global ls n v sect oi).base_addr = ls.base_addr := by
  unfold add_global
  cases hf : find_global ls n with
  | none => by_cases hl : ls.symbols.length ≥ 2048 <;> simp [hl]
  | some y => rfl

theorem add_global_tc (ls : LdState) (n : String) (v sect : Nat) (oi : Int) :
    (add_global ls n v sect oi).total_code = ls.total_code := by
  unfold add_global
  cases hf : find_global ls n with
  | none => by_cases hl : ls.symbols.length ≥ 2048 <;> simp [hl]
  | some y => rfl

theorem add_global_td (ls : LdState) (n : String) (v sect : Nat) (oi : Int) :
    (add_global ls n v sect oi).total_data = ls.total_data := by
  unfold add_global
  cases hf : find_global ls n with
  | none => by_cases hl : ls.symbols.length ≥ 2048 <;> simp [hl]
  | some y => rfl

theorem add_global_tb (ls : LdState) (n : String) (v sect : Nat) (oi : Int) :
    (add_global ls n v sect oi).total_bss = ls.total_bss := by
  unfold add_global
  cases hf : find_global ls n with
  | none => by_cases hl : ls.symbols.length ≥ 2048 <;> simp [hl]
  | some y => rfl

theorem add_global_ok {ls : LdState} {n : String} (v sect : Nat) (oi : Int)
    (hfind : find_global ls n = none) (hlen : ls.symbols.length < 2048) :
    (add_global ls n v sect oi).symbols =
      ls.symbols ++ [{ name := n, value := v, sect := sect, obj_index := oi }] ∧
    (add_global ls n v sect oi).errors = ls.errors := by
  unfold add_global
  rw [hfind]
  rw [if_neg (Nat.not_le.mpr hlen)]
  exact ⟨rfl, rfl⟩

theorem find?_append_none {α : Type} {p : α → Bool} {l1 l2 : List α}
    (h1 : l1.find? p = none) (h2 : l2.find? p = none) :
    (l1 ++ l2).find? p = none := by
  rw [List.find?_eq_none] at h1 h2 ⊢
  intro x hx
  rcases List.mem_append.mp hx with h | h
  · exact h1 x h
  · exact h2 x h

theorem make_absolute_name (objs : List LObjInfo) (s : LGlobal) :
    (make_absolute objs s).name = s.name := by
  unfold make_absolute
  split
  · rfl
  · split
    · rfl
    · split <;> rfl

theorem find?_map_none {l : List LGlobal} {nm : String} {f : LGlobal → LGlobal}
    (hf : ∀ s, (f s).name = s.name)
    (h : l.find? (fun s => eqNoCase s.name nm) = none) :
    (l.map f).find? (fun s => eqNoCase s.name nm) = none := by
  rw [List.find?_eq_none] at h ⊢
  intro x hx
  obtain ⟨s, hs, rfl⟩ := List.mem_map.mp hx
  simpa [hf] using h s hs

end Ld

end DeepCasm
namespace DeepCasm

namespace Ld

theorem find?_cons_none {nm1 nm : String} {v sect : Nat} {oi : Int} {l : List LGlobal}
    (h : eqNoCase nm1 nm = false)
    (hl : l.find? (fun x => eqNoCase x.name nm) = none) :
    (({ name := nm1, value := v, sect := sect, obj_index := oi } : LGlobal) :: l).find?
      (fun x => eqNoCase x.name nm) = none := by
  simp [List.find?, h, hl]

/-- C3: after `resolve_symbols`, object bases are assigned sequentially
(code from `base_addr`, data from `base_addr + total code`, bss after
that), the three totals are the section size sums, every
section-relative global symbol has its owning object's section base
added to its value, and exactly six absolute-section linker symbols
with the documented values are appended. -/
theorem c3_layout_and_injection : ∀ ls : LdState,
    ls.base_addr < M32 →
    ls.symbols.length + 6 ≤ 2048 →
    find_global ls "__low_code" = none →
    find_global ls "__len_code" = none →
    find_global ls "__low_data" = none →
    find_global ls "__len_data" = none →
    find_global ls "__low_bss" = none →
    find_global ls "__len_bss" = none →
    (∀ i o, ls.objects.get? i = some o →
      (resolve_symbols ls).objects.get? i = some
        { o with
          code_base := (ls.base_addr + ((ls.objects.take i).map (·.code_size)).sum) % M32,
          data_base := ((ls.base_addr + (ls.objects.map (·.code_size)).sum) % M32 +
                        ((ls.objects.take i).map (·.data_size)).sum) % M32,
          bss_base := (((ls.base_addr + (ls.objects.map (·.code_size)).sum) % M32 +
                        (ls.objects.map (·.data_size)).sum) % M32 +
                       ((ls.objects.take i).map (·.bss_size)).sum) % M32 }) ∧
    (resolve_symbols ls).total_code = (ls.objects.map (·.code_size)).sum % M32 ∧
    (resolve_symbols ls).total_data = (ls.objects.map (·.data_size)).sum % M32 ∧
    (resolve_symbols ls).total_bss = (ls.objects.map (·.bss_size)).sum % M32 ∧
    (∀ k s, ls.symbols.get? k = some s →
      (resolve_symbols ls).symbols.get? k =
        some (make_absolute (resolve_symbols ls).objects s)) ∧
    (∀ (objs : List LObjInfo) (s : LGlobal), s.sect = SECT_ABS → make_absolute objs s = s) ∧
    (∀ (objs : List LObjInfo) (s : LGlobal) (o : LObjInfo), s.sect = SECT_CODE →
      objs.get? s.obj_index.toNat = some o →
      make_absolute objs s = { s with value := uadd s.value o.code_base }) ∧
    (∀ (objs : List LObjInfo) (s : LGlobal) (o : LObjInfo), s.sect = SECT_DATA →
      objs.get? s.obj_index.toNat = some o →
      make_absolute objs s = { s with value := uadd s.value o.data_base }) ∧
    (∀ (objs : List LObjInfo) (s : LGlobal) (o : LObjInfo), s.sect = SECT_BSS →
      objs.get? s.obj_index.toNat = some o →
      make_absolute objs s = { s with value := uadd s.value o.bss_base }) ∧
    (resolve_symbols ls).symbols.length = ls.symbols.length + 6 ∧
    (resolve_symbols ls).symbols.drop ls.symbols.length =
      [{ name := "__low_code", value := ls.base_addr, sect := 0, obj_index := -1 },
       { name := "__len_code", value := (resolve_symbols ls).total_code, sect := 0, obj_index := -1 },
       { name := "__low_data", value := uadd ls.base_addr (resolve_symbols ls).total_code,
         sect := 0, obj_index := -1 },
       { name := "__len_data", value := (resolve_symbols ls).total_data, sect := 0, obj_index := -1 },
       { name := "__low_bss",
         value := uadd (uadd ls.base_addr (resolve_symbols ls).total_code)
                    (resolve_symbols ls).total_data, sect := 0, obj_index := -1 },
       { name := "__len_bss", value := (resolve_symbols ls).total_bss, sect := 0, obj_index := -1 }] ∧
    (resolve_symbols ls).errors = ls.errors := by
  intro ls hbase hcap k1 k2 k3 k4 k5 k6
  cases hA : assign_code ls.base_addr ls.objects with
  | mk objs1 cfin =>
  cases hB : assign_data cfin objs1 with
  | mk objs2 dfin =>
  cases hC : assign_bss dfin objs2 with
  | mk objs3 bfin =>
  -- basic facts about the three layout passes
  have hobjs1 : (assign_code ls.base_addr ls.objects).1 = objs1 := by rw [hA]
  have hcf : (assign_code ls.base_addr ls.objects).2 = cfin := by rw [hA]
  have hobjs2 : (assign_data cfin objs1).1 = objs2 := by rw [hB]
  have hdf : (assign_data cfin objs1).2 = dfin := by rw [hB]
  have hobjs3 : (assign_bss dfin objs2).1 = objs3 := by rw [hC]
  have hbf : (assign_bss dfin objs2).2 = bfin := by rw [hC]
  have hmap_d1 : objs1.map (·.data_size) = ls.objects.map (·.data_size) := by
    rw [← hobjs1, assign_code_map_data]
  have hmap_b1 : objs1.map (·.bss_size) = ls.objects.map (·.bss_size) := by
    rw [← hobjs1, assign_code_map_bss]
  have hmap_b2 : objs2.map (·.bss_size) = ls.objects.map (·.bss_size) := by
    rw [← hobjs2, assign_data_map_bss, hmap_b1]
  have hcfv : cfin = (ls.base_addr + (ls.objects.map (·.code_size)).sum) % M32 := by
    rw [← hcf, assign_code_fin _ _ hbase]
  have hcflt : cfin < M32 := by rw [hcfv]; exact Nat.mod_lt _ M32_pos
  have hdfv : dfin = (cfin + (ls.objects.map (·.data_size)).sum) % M32 := by
    rw [← hdf, assign_data_fin _ _ hcflt, hmap_d1]
  have hdflt : dfin < M32 := by rw [hdfv]; exact Nat.mod_lt _ M32_pos
  have hbfv : bfin = (dfin + (ls.objects.map (·.bss_size)).sum) % M32 := by
    rw [← hbf, assign_bss_fin _ _ hdflt, hmap_b2]
  -- the pre-injection state
  have hres : resolve_symbols ls =
      add_global (add_global (add_global (add_global (add_global (add_global
        { ls with objects := objs3, symbols := ls.symbols.map (make_absolute objs3),
                  total_code := usub cfin ls.base_addr, total_data := usub dfin cfin,
                  total_bss := usub bfin dfin }
        "__low_code" ls.base_addr 0 (-1)) "__len_code" (usub cfin ls.base_addr) 0 (-1))
        "__low_data" (uadd ls.base_addr (usub cfin ls.base_addr)) 0 (-1))
        "__len_data" (usub dfin cfin) 0 (-1))
        "__low_bss" (uadd (uadd ls.base_addr (usub cfin ls.base_addr)) (usub dfin cfin)) 0 (-1))
        "__len_bss" (usub bfin dfin) 0 (-1) := by
    simp only [resolve_symbols, hA, hB, hC]
  -- find-none facts for the six injections
  have hmaplen : (ls.symbols.map (make_absolute objs3)).length = ls.symbols.length :=
    List.length_map _ _
  have km : ∀ nm : String, find_global ls nm = none →
      (ls.symbols.map (make_absolute objs3)).find? (fun s => eqNoCase s.name nm) = none :=
    fun nm h => find?_map_none (fun s => make_absolute_name objs3 s) (by
      unfold find_global at h; exact h)
  -- name the six intermediate states
  set P0 : LdState :=
    { ls with objects := objs3, symbols := ls.symbols.map (make_absolute objs3),
              total_code := usub cfin ls.base_addr, total_data := usub dfin cfin,
              total_bss := usub bfin dfin } with hP0
  set A1 := add_global P0 "__low_code" ls.base_addr 0 (-1) with hA1
  set A2 := add_global A1 "__len_code" (usub cfin ls.base_addr) 0 (-1) with hA2
  set A3 := add_global A2 "__low_data" (uadd ls.base_addr (usub cfin ls.base_addr)) 0 (-1)
    with hA3
  set A4 := add_global A3 "__len_data" (usub dfin cfin) 0 (-1) with hA4
  set A5 := add_global A4 "__low_bss"
    (uadd (uadd ls.base_addr (usub cfin ls.base_addr)) (usub dfin cfin)) 0 (-1) with hA5
  set A6 := add_global A5 "__len_bss" (usub bfin dfin) 0 (-1) with hA6
  have hP0s : P0.symbols = ls.symbols.map (make_absolute objs3) := by rw [hP0]
  -- step 1
  have hl1 : P0.symbols.length < 2048 := by rw [hP0s, hmaplen]; omega
  have f1 : find_global P0 "__low_code" = none := by
    unfold find_global; rw [hP0s]; exact km _ k1
  have s1 := add_global_ok ls.base_addr 0 (-1) f1 hl1
  have hcat1 : A1.symbols = ls.symbols.map (make_absolute objs3) ++
      [{ name := "__low_code", value := ls.base_addr, sect := 0, obj_index := -1 }] := by
    rw [hA1, s1.1, hP0s]
  have herr1 : A1.errors = ls.errors := by rw [hA1, s1.2, hP0]
  -- step 2
  have hl2 : A1.symbols.length < 2048 := by
    rw [hcat1]
    simp only [List.length_append, hmaplen, List.length_cons, List.length_nil]
    omega
  have f2 : find_global A1 "__len_code" = none := by
    unfold find_global; rw [hcat1]
    exact find?_append_none (km _ k2) (find?_cons_none (by decide) rfl)
  have s2 := add_global_ok (usub cfin ls.base_addr) 0 (-1) f2 hl2
  have hcat2 : A2.symbols = ls.symbols.map (make_absolute objs3) ++
      [{ name := "__low_code", value := ls.base_addr, sect := 0, obj_index := -1 },
       { name := "__len_code", value := usub cfin ls.base_addr, sect := 0, obj_index := -1 }] := by
    rw [hA2, s2.1, hcat1, List.append_assoc]
    rfl
  have herr2 : A2.errors = ls.errors := by rw [hA2, s2.2, herr1]
  -- step 3
  have hl3 : A2.symbols.length < 2048 := by
    rw [hcat2]
    simp only [List.length_append, hmaplen, List.length_cons, List.length_nil]
    omega
  have f3 : find_global A2 "__low_data" = none := by
    unfold find_global; rw [hcat2]
    exact find?_append_none (km _ k3)
      (find?_cons_none (by decide) (find?_cons_none (by decide) rfl))
  have s3 := add_global_ok (uadd ls.base_addr (usub cfin ls.base_addr)) 0 (-1) f3 hl3
  have hcat3 : A3.symbols = ls.symbols.map (make_absolute objs3) ++
      [{ name := "__low_code", value := ls.base_addr, sect := 0, obj_index := -1 },
       { name := "__len_code", value := usub cfin ls.base_addr, sect := 0, obj_index := -1 },
       { name := "__low_data", value := uadd ls.base_addr (usub cfin ls.base_addr),
         sect := 0, obj_index := -1 }] := by
    rw [hA3, s3.1, hcat2, List.append_assoc]
    rfl
  have herr3 : A3.errors = ls.errors := by rw [hA3, s3.2, herr2]
  -- step 4
  have hl4 : A3.symbols.length < 2048 := by
    rw [hcat3]
    simp only [List.length_append, hmaplen, List.length_cons, List.length_nil]
    omega
  have f4 : find_global A3 "__len_data" = none := by
    unfold find_global; rw [hcat3]
    exact find?_append_none (km _ k4)
      (find?_cons_none (by decide) (find?_cons_none (by decide)
        (find?_cons_none (by decide) rfl)))
  have s4 := add_global_ok (usub dfin cfin) 0 (-1) f4 hl4
  have hcat4 : A4.symbols = ls.symbols.map (make_absolute objs3) ++
      [{ name := "__low_code", value := ls.base_addr, sect := 0, obj_index := -1 },
       { name := "__len_code", value := usub cfin ls.base_addr, sect := 0, obj_index := -1 },
       { name := "__low_data", value := uadd ls.base_addr (usub cfin ls.base_addr),
         sect := 0, obj_index := -1 },
       { name := "__len_data", value := usub dfin cfin, sect := 0, obj_index := -1 }] := by
    rw [hA4, s4.1, hcat3, List.append_assoc]
    rfl
  have herr4 : A4.errors = ls.errors := by rw [hA4, s4.2, herr3]
  -- step 5
  have hl5 : A4.symbols.length < 2048 := by
    rw [hcat4]
    simp only [List.length_append, hmaplen, List.length_cons, List.length_nil]
    omega
  have f5 : find_global A4 "__low_bss" = none := by
    unfold find_global; rw [hcat4]
    exact find?_append_none (km _ k5)
      (find?_cons_none (by decide) (find?_cons_none (by decide)
        (find?_cons_none (by decide) (find?_cons_none (by decide) rfl))))
  have s5 := add_global_ok
    (uadd (uadd ls.base_addr (usub cfin ls.base_addr)) (usub dfin cfin)) 0 (-1) f5 hl5
  have hcat5 : A5.symbols = ls.symbols.map (make_absolute objs3) ++
      [{ name := "__low_code", value := ls.base_addr, sect := 0, obj_index := -1 },
       { name := "__len_code", value := usub cfin ls.base_addr, sect := 0, obj_index := -1 },
       { name := "__low_data", value := uadd ls.base_addr (usub cfin ls.base_addr),
         sect := 0, obj_index := -1 },
       { name := "__len_data", value := usub dfin cfin, sect := 0, obj_index := -1 },
       { name := "__low_bss",
         value := uadd (uadd ls.base_addr (usub cfin ls.base_addr)) (usub dfin cfin),
         sect := 0, obj_index := -1 }] := by
    rw [hA5, s5.1, hcat4, List.append_assoc]
    rfl
  have herr5 : A5.errors = ls.errors := by rw [hA5, s5.2, herr4]
  -- step 6
  have hl6 : A5.symbols.length < 2048 := by
    rw [hcat5]
    simp only [List.length_append, hmaplen, List.length_cons, List.length_nil]
    omega
  have f6 : find_global A5 "__len_bss" = none := by
    unfold find_global; rw [hcat5]
    exact find?_append_none (km _ k6)
      (find?_cons_none (by decide) (find?_cons_none (by decide)
        (find?_cons_none (by decide) (find?_cons_none (by decide)
          (find?_cons_none (by decide) rfl)))))
  have s6 := add_global_ok (usub bfin dfin) 0 (-1) f6 hl6
  have hcat6 : A6.symbols = ls.symbols.map (make_absolute objs3) ++
      [{ name := "__low_code", value := ls.base_addr, sect := 0, obj_index := -1 },
       { name := "__len_code", value := usub cfin ls.base_addr, sect := 0, obj_index := -1 },
       { name := "__low_data", value := uadd ls.base_addr (usub cfin ls.base_addr),
         sect := 0, obj_index := -1 },
       { name := "__len_data", value := usub dfin cfin, sect := 0, obj_index := -1 },
       { name := "__low_bss",
         value := uadd (uadd ls.base_addr (usub cfin ls.base_addr)) (usub dfin cfin),
         sect := 0, obj_index := -1 },
       { name := "__len_bss", value := usub bfin dfin, sect := 0, obj_index := -1 }] := by
    rw [hA6, s6.1, hcat5, List.append_assoc]
    rfl
  have herr6 : A6.errors = ls.errors := by rw [hA6, s6.2, herr5]
  -- global projections of the final state
  have hobj : (resolve_symbols ls).objects = objs3 := by
    rw [hres, hA6, add_global_objects, hA5, add_global_objects, hA4, add_global_objects,
        hA3, add_global_objects, hA2, add_global_objects, hA1, add_global_objects, hP0]
  have htc : (resolve_symbols ls).total_code = usub cfin ls.base_addr := by
    rw [hres, hA6, add_global_tc, hA5, add_global_tc, hA4, add_global_tc,
        hA3, add_global_tc, hA2, add_global_tc, hA1, add_global_tc, hP0]
  have htd : (resolve_symbols ls).total_data = usub dfin cfin := by
    rw [hres, hA6, add_global_td, hA5, add_global_td, hA4, add_global_td,
        hA3, add_global_td, hA2, add_global_td, hA1, add_global_td, hP0]
  have htb : (resolve_symbols ls).total_bss = usub bfin dfin := by
    rw [hres, hA6, add_global_tb, hA5, add_global_tb, hA4, add_global_tb,
        hA3, add_global_tb, hA2, add_global_tb, hA1, add_global_tb, hP0]
  have hsyms := hres ▸ hcat6
  have herr : (resolve_symbols ls).errors = ls.errors := hres ▸ herr6
  have htc' : (resolve_symbols ls).total_code = (ls.objects.map (·.code_size)).sum % M32 := by
    rw [htc, hcfv, usub_wrap _ hbase]
  have htd' : (resolve_symbols ls).total_data = (ls.objects.map (·.data_size)).sum % M32 := by
    rw [htd, hdfv, usub_wrap _ hcflt]
  have htb' : (resolve_symbols ls).total_bss = (ls.objects.map (·.bss_size)).sum % M32 := by
    rw [htb, hbfv, usub_wrap _ hdflt]
  refine ⟨?_, htc', htd', htb', ?_, ?_, ?_, ?_, ?_, ?_, ?_, herr⟩
  · -- object layout
    intro i o hio
    rw [hobj]
    have e_d : ((objs1.take i).map (·.data_size)).sum =
        ((ls.objects.take i).map (·.data_size)).sum := by
      rw [List.map_take, hmap_d1, ← List.map_take]
    have e_b : ((objs2.take i).map (·.bss_size)).sum =
        ((ls.objects.take i).map (·.bss_size)).sum := by
      rw [List.map_take, hmap_b2, ← List.map_take]
    have t1 := assign_code_get ls.base_addr ls.objects i o hbase hio
    rw [hobjs1] at t1
    have t2 := assign_data_get cfin objs1 i _ hcflt t1
    rw [hobjs2] at t2
    have t3 := assign_bss_get dfin objs2 i _ hdflt t2
    rw [hobjs3] at t3
    rw [e_d, e_b, hdfv, hcfv] at t3
    exact t3
  · -- old symbols made absolute in place
    intro kk s hks
    have hk : kk < ls.symbols.length := by
      rcases List.get?_eq_some.mp hks with ⟨h, _⟩
      exact h
    rw [hsyms, hobj, List.get?_append (by rwa [hmaplen]), List.get?_map, hks]
    rfl
  · -- make_absolute on absolute symbols
    intro objs s h
    simp [make_absolute, h, SECT_ABS, SECT_CODE, SECT_DATA, SECT_BSS]
  · -- make_absolute on CODE symbols
    intro objs s o h hgo
    have hg : objs[s.obj_index.toNat]? = some o := by
      rw [← List.get?_eq_getElem?]; exact hgo
    simp [make_absolute, h, SECT_CODE, hg]
  · -- make_absolute on DATA symbols
    intro objs s o h hgo
    have hg : objs[s.obj_index.toNat]? = some o := by
      rw [← List.get?_eq_getElem?]; exact hgo
    simp [make_absolute, h, SECT_CODE, SECT_DATA, hg]
  · -- make_absolute on BSS symbols
    intro objs s o h hgo
    have hg : objs[s.obj_index.toNat]? = some o := by
      rw [← List.get?_eq_getElem?]; exact hgo
    simp [make_absolute, h, SECT_CODE, SECT_DATA, SECT_BSS, hg]
  · -- six symbols appended
    rw [hsyms]
    simp only [List.length_append, hmaplen, List.length_cons, List.length_nil]
  · -- the injected records
    rw [htc, htd, htb, hsyms,
        show ls.symbols.length = (ls.symbols.map (make_absolute objs3)).length
          from hmaplen.symm]
    exact List.drop_left _ _

end Ld

/-- Witness for `c3_layout_and_injection` at `w3ls` (two objects of
code sizes 0x10/0x20, base 0x40000, one CODE symbol). -/
theorem c3_layout_and_injection_witness :
    w3ls.base_addr < Ld.M32 ∧ w3ls.symbols.length + 6 ≤ 2048 ∧
    Ld.find_global w3ls "__low_code" = none ∧
    Ld.find_global w3ls "__len_code" = none ∧
    Ld.find_global w3ls "__low_data" = none ∧
    Ld.find_global w3ls "__len_data" = none ∧
    Ld.find_global w3ls "__low_bss" = none ∧
    Ld.find_global w3ls "__len_bss" = none ∧
    (Ld.resolve_symbols w3ls).total_code =
      (w3ls.objects.map (·.code_size)).sum % Ld.M32 ∧
    (Ld.resolve_symbols w3ls).symbols.length = w3ls.symbols.length + 6 ∧
    (Ld.resolve_symbols w3ls).errors = w3ls.errors :=
  ⟨by decide, by decide, by decide, by decide, by decide, by decide, by decide, by decide,
   (Ld.c3_layout_and_injection w3ls (by decide) (by decide) (by decide) (by decide)
     (by decide) (by decide) (by decide) (by decide)).2.1,
   (Ld.c3_layout_and_injection w3ls (by decide) (by decide) (by decide) (by decide)
     (by decide) (by decide) (by decide) (by decide)).2.2.2.2.2.2.2.2.2.1,
   (Ld.c3_layout_and_injection w3ls (by decide) (by decide) (by decide) (by decide)
     (by decide) (by decide) (by decide) (by decide)).2.2.2.2.2.2.2.2.2.2.2⟩

end DeepCasm
namespace DeepCasm

namespace Ld

/-! ## Helper lemmas for relocation patching (C4) -/

theorem read24_write24 (buf : Nat → Nat) (pos v : Nat) :
    read24 (write24 buf pos v) pos = v % 16777216 := by
  unfold read24 write24
  have h1 : pos + 1 ≠ pos := by omega
  have h2 : pos + 2 ≠ pos := by omega
  have h3 : pos + 2 ≠ pos + 1 := by omega
  rw [if_pos rfl, if_neg h1, if_pos rfl, if_neg h2, if_neg h3, if_pos rfl]
  omega

theorem write24_frame (buf : Nat → Nat) (pos v k : Nat)
    (h1 : k ≠ pos) (h2 : k ≠ pos + 1) (h3 : k ≠ pos + 2) :
    write24 buf pos v k = buf k := by
  unfold write24
  rw [if_neg h1, if_neg h2, if_neg h3]

/-- C4: relocation patching in `link_output`.  The target address is
the looked-up global's absolute value for `target_sect = 0` and the
owning object's section base otherwise; an in-range patch site gets
`existing + target` written back 24-bit little-endian (all other bytes
and the other buffer untouched, no error); an out-of-range patch site
is skipped entirely, without touching the error counter. -/
theorem c4_reloc_patch : ∀ (ls : LdState) (obj : RelObjView) (r : RelocRec)
    (bufs : LinkBufs),
    (r.target_sect = 0 → ∀ nm sym, obj.ext_names.get? r.ext_index = some nm →
      find_global ls nm = some sym → reloc_target ls obj r = some sym.value) ∧
    (r.target_sect = SECT_CODE → reloc_target ls obj r = some obj.code_base) ∧
    (r.target_sect = SECT_DATA → reloc_target ls obj r = some obj.data_base) ∧
    (r.target_sect = SECT_BSS → reloc_target ls obj r = some obj.bss_base) ∧
    (∀ target, reloc_target ls obj r = some target → r.sect = SECT_CODE →
      usub obj.code_base ls.base_addr + r.offset + 2 < ls.total_code →
      read24 (apply_reloc ls obj r bufs).code_buf
          (usub obj.code_base ls.base_addr + r.offset) =
        (read24 bufs.code_buf (usub obj.code_base ls.base_addr + r.offset) + target) %
          16777216 ∧
      (∀ k, k ≠ usub obj.code_base ls.base_addr + r.offset →
        k ≠ usub obj.code_base ls.base_addr + r.offset + 1 →
        k ≠ usub obj.code_base ls.base_addr + r.offset + 2 →
        (apply_reloc ls obj r bufs).code_buf k = bufs.code_buf k) ∧
      (apply_reloc ls obj r bufs).data_buf = bufs.data_buf ∧
      (apply_reloc ls obj r bufs).errors = bufs.errors) ∧
    (∀ target, reloc_target ls obj r = some target → r.sect = SECT_CODE →
      ¬ (usub obj.code_base ls.base_addr + r.offset + 2 < ls.total_code) →
      apply_reloc ls obj r bufs = bufs) ∧
    (∀ target, reloc_target ls obj r = some target → r.sect = SECT_DATA →
      usub (usub obj.data_base ls.base_addr) ls.total_code + r.offset + 2 < ls.total_data →
      read24 (apply_reloc ls obj r bufs).data_buf
          (usub (usub obj.data_base ls.base_addr) ls.total_code + r.offset) =
        (read24 bufs.data_buf
            (usub (usub obj.data_base ls.base_addr) ls.total_code + r.offset) + target) %
          16777216 ∧
      (∀ k, k ≠ usub (usub obj.data_base ls.base_addr) ls.total_code + r.offset →
        k ≠ usub (usub obj.data_base ls.base_addr) ls.total_code + r.offset + 1 →
        k ≠ usub (usub obj.data_base ls.base_addr) ls.total_code + r.offset + 2 →
        (apply_reloc ls obj r bufs).data_buf k = bufs.data_buf k) ∧
      (apply_reloc ls obj r bufs).code_buf = bufs.code_buf ∧
      (apply_reloc ls obj r bufs).errors = bufs.errors) ∧
    (∀ target, reloc_target ls obj r = some target → r.sect = SECT_DATA →
      ¬ (usub (usub obj.data_base ls.base_addr) ls.total_code + r.offset + 2 <
            ls.total_data) →
      apply_reloc ls obj r bufs = bufs) := by
  intro ls obj r bufs
  refine ⟨?_, ?_, ?_, ?_, ?_, ?_, ?_, ?_⟩
  · intro h nm sym h1 h2
    rw [List.get?_eq_getElem?] at h1
    simp [reloc_target, h, h1, h2]
  · intro h
    simp [reloc_target, h, SECT_CODE]
  · intro h
    simp [reloc_target, h, SECT_CODE, SECT_DATA]
  · intro h
    simp [reloc_target, h, SECT_CODE, SECT_DATA, SECT_BSS]
  · intro target ht hs hin
    have hres : apply_reloc ls obj r bufs =
        { bufs with code_buf := write24 bufs.code_buf
                      (usub obj.code_base ls.base_addr + r.offset)
                      (uadd target (read24 bufs.code_buf
                        (usub obj.code_base ls.base_addr + r.offset))) } := by
      simp [apply_reloc, ht, hs, hin]
    refine ⟨?_, ?_, ?_, ?_⟩
    · rw [hres]
      show read24 (write24 _ _ _) _ = _
      rw [read24_write24]
      simp only [uadd, M32]
      omega
    · intro k hk1 hk2 hk3
      rw [hres]
      exact write24_frame _ _ _ _ hk1 hk2 hk3
    · rw [hres]
    · rw [hres]
  · intro target ht hs hout
    simp [apply_reloc, ht, hs, hout]
  · intro target ht hs hin
    have hres : apply_reloc ls obj r bufs =
        { bufs with data_buf := write24 bufs.data_buf
                      (usub (usub obj.data_base ls.base_addr) ls.total_code + r.offset)
                      (uadd target (read24 bufs.data_buf
                        (usub (usub obj.data_base ls.base_addr) ls.total_code +
                          r.offset))) } := by
      simp [apply_reloc, ht, hs, SECT_CODE, SECT_DATA, hin]
    refine ⟨?_, ?_, ?_, ?_⟩
    · rw [hres]
      show read24 (write24 _ _ _) _ = _
      rw [read24_write24]
      simp only [uadd, M32]
      omega
    · intro k hk1 hk2 hk3
      rw [hres]
      exact write24_frame _ _ _ _ hk1 hk2 hk3
    · rw [hres]
    · rw [hres]
  · intro target ht hs hout
    simp [apply_reloc, ht, hs, SECT_CODE, SECT_DATA, hout]

end Ld

/-- Witness for `c4_reloc_patch`: the in-range CODE case on
`w4ls`/`w4obj`/`w4rec`/`w4bufs` (patch site 0, existing byte 5, target
0x40000). -/
theorem c4_reloc_patch_witness :
    Ld.reloc_target w4ls w4obj w4rec = some w4obj.code_base ∧
    w4rec.sect = SECT_CODE ∧
    Ld.usub w4obj.code_base w4ls.base_addr + w4rec.offset + 2 < w4ls.total_code ∧
    (Ld.read24 (Ld.apply_reloc w4ls w4obj w4rec w4bufs).code_buf
        (Ld.usub w4obj.code_base w4ls.base_addr + w4rec.offset) =
      (Ld.read24 w4bufs.code_buf (Ld.usub w4obj.code_base w4ls.base_addr + w4rec.offset) +
        w4obj.code_base) % 16777216 ∧
     (∀ k, k ≠ Ld.usub w4obj.code_base w4ls.base_addr + w4rec.offset →
       k ≠ Ld.usub w4obj.code_base w4ls.base_addr + w4rec.offset + 1 →
       k ≠ Ld.usub w4obj.code_base w4ls.base_addr + w4rec.offset + 2 →
       (Ld.apply_reloc w4ls w4obj w4rec w4bufs).code_buf k = w4bufs.code_buf k) ∧
     (Ld.apply_reloc w4ls w4obj w4rec w4bufs).data_buf = w4bufs.data_buf ∧
     (Ld.apply_reloc w4ls w4obj w4rec w4bufs).errors = w4bufs.errors) :=
  ⟨by decide, by decide, by decide,
   (Ld.c4_reloc_patch w4ls w4obj w4rec w4bufs).2.2.2.2.1 w4obj.code_base
     (by decide) (by decide) (by decide)⟩

end DeepCasm
namespace DeepCasm

namespace Ld

/-! ## Library loading: per-scan guarantees (C6) -/

theorem scan_objs_nil (undef : List String) (li : Nat) (ls : LnkSt) (idx : Nat) :
    ScanSpec undef li [] ls idx := by
  simp [ScanSpec, scan_objs]

theorem scan_objs_skip (undef : List String) (li : Nat) (o : CLibObj)
    (rest : List CLibObj) (ls : LnkSt) (idx : Nat)
    (hEQ : scan_objs undef li ls idx (o :: rest) =
      ((scan_objs undef li ls (idx + 1) rest).1,
       o :: (scan_objs undef li ls (idx + 1) rest).2.1,
       (scan_objs undef li ls (idx + 1) rest).2.2.1,
       (scan_objs undef li ls (idx + 1) rest).2.2.2))
    (ih : ScanSpec undef li rest ls (idx + 1)) :
    ScanSpec undef li (o :: rest) ls idx := by
  obtain ⟨ihLen, ihStep, ihEv, ihPw, ihCnt, ihAny, ihNop, ihLibs⟩ := ih
  unfold ScanSpec
  rw [hEQ]
  dsimp only
  refine ⟨?_, ?_, ?_, ihPw, ?_, ihAny, ?_, ihLibs⟩
  · simp [ihLen]
  · intro j
    cases j with
    | zero => exact Or.inl rfl
    | succ j =>
      rcases ihStep j with h | h
      · exact Or.inl (by simpa using h)
      · obtain ⟨ob, h1, h2, h3⟩ := h
        exact Or.inr ⟨ob, by simpa using h1, h2, by simpa using h3⟩
  · intro e he
    obtain ⟨he1, he2, ob, h1, h2, h3⟩ := ihEv e he
    refine ⟨he1, by omega, ob, ?_, h2, ?_⟩
    · rw [show e.2 - idx = (e.2 - (idx + 1)) + 1 from by omega]
      simpa using h1
    · rw [show e.2 - idx = (e.2 - (idx + 1)) + 1 from by omega]
      simpa using h3
  · rw [List.filter_cons, List.filter_cons]
    cases hl : (!o.loaded) <;> simp [hl] <;> omega
  · intro hf
    obtain ⟨hs, ho1⟩ := ihNop hf
    exact ⟨hs, by rw [ho1]⟩

theorem scan_objs_load (undef : List String) (li : Nat) (o : CLibObj)
    (rest : List CLibObj) (ls : LnkSt) (idx : Nat)
    (ho : o.loaded = false)
    (hEQ : scan_objs undef li ls idx (o :: rest) =
      ((scan_objs undef li (load_lib_object ls o) (idx + 1) rest).1,
       { o with loaded := true } ::
         (scan_objs undef li (load_lib_object ls o) (idx + 1) rest).2.1,
       true,
       (li, idx) :: (scan_objs undef li (load_lib_object ls o) (idx + 1) rest).2.2.2))
    (ih : ScanSpec undef li rest (load_lib_object ls o) (idx + 1)) :
    ScanSpec undef li (o :: rest) ls idx := by
  obtain ⟨ihLen, ihStep, ihEv, ihPw, ihCnt, ihAny, ihNop, ihLibs⟩ := ih
  unfold ScanSpec
  rw [hEQ]
  dsimp only
  refine ⟨?_, ?_, ?_, ?_, ?_, ?_, ?_, ?_⟩
  · simp [ihLen]
  · intro j
    cases j with
    | zero => exact Or.inr ⟨o, rfl, ho, rfl⟩
    | succ j =>
      rcases ihStep j with h | h
      · exact Or.inl (by simpa using h)
      · obtain ⟨ob, h1, h2, h3⟩ := h
        exact Or.inr ⟨ob, by simpa using h1, h2, by simpa using h3⟩
  · intro e he
    rcases List.mem_cons.mp he with h | h
    · subst h
      exact ⟨rfl, Nat.le_refl idx, o, by simp, ho, by simp⟩
    · obtain ⟨he1, he2, ob, h1, h2, h3⟩ := ihEv e h
      refine ⟨he1, by omega, ob, ?_, h2, ?_⟩
      · rw [show e.2 - idx = (e.2 - (idx + 1)) + 1 from by omega]
        simpa using h1
      · rw [show e.2 - idx = (e.2 - (idx + 1)) + 1 from by omega]
        simpa using h3
  · constructor
    · intro e he
      have := (ihEv e he).2.1
      show idx < e.2
      omega
    · exact ihPw
  · rw [List.filter_cons, List.filter_cons]
    simp [ho]
    omega
  · simp
  · intro hf
    simp at hf
  · rw [ihLibs]
    rfl

theorem scan_objs_spec (undef : List String) (li : Nat) :
    ∀ (objs : List CLibObj) (ls : LnkSt) (idx : Nat), ScanSpec undef li objs ls idx
  | [], ls, idx => scan_objs_nil undef li ls idx
  | o :: rest, ls, idx => by
    cases hL : o.loaded with
    | true =>
      refine scan_objs_skip undef li o rest ls idx ?_
        (scan_objs_spec undef li rest ls (idx + 1))
      rcases hR : scan_objs undef li ls (idx + 1) rest with ⟨ls1, rest1, any1, evs⟩
      simp [scan_objs, hL, hR]
    | false =>
      cases hE : o.exports.isEmpty with
      | true =>
        refine scan_objs_skip undef li o rest ls idx ?_
          (scan_objs_spec undef li rest ls (idx + 1))
        rcases hR : scan_objs undef li ls (idx + 1) rest with ⟨ls1, rest1, any1, evs⟩
        simp [scan_objs, hL, hE, hR]
      | false =>
        cases hM : obj_matches undef o with
        | true =>
          refine scan_objs_load undef li o rest ls idx hL ?_
            (scan_objs_spec undef li rest (load_lib_object ls o) (idx + 1))
          rcases hR : scan_objs undef li (load_lib_object ls o) (idx + 1) rest
            with ⟨ls1, rest1, any1, evs⟩
          simp [scan_objs, hL, hE, hM, hR]
        | false =>
          refine scan_objs_skip undef li o rest ls idx ?_
            (scan_objs_spec undef li rest ls (idx + 1))
          rcases hR : scan_objs undef li ls (idx + 1) rest with ⟨ls1, rest1, any1, evs⟩
          simp [scan_objs, hL, hE, hM, hR]

end Ld

end DeepCasm
namespace DeepCasm

namespace Ld

theorem scan_libs_nil (undef : List String) (ls : LnkSt) (li : Nat) :
    LibsSpec undef [] ls li := by
  simp [LibsSpec, scan_libs]

theorem scan_libs_spec (undef : List String) :
    ∀ (libs : List CLib) (ls : LnkSt) (li : Nat), LibsSpec undef libs ls li
  | [], ls, li => scan_libs_nil undef ls li
  | lib :: rest, ls, li => by
    rcases hO : scan_objs undef li ls 0 lib.objs with ⟨ls1, objs1, any1, evs1⟩
    have hobj := scan_objs_spec undef li lib.objs ls 0
    have ihl := scan_libs_spec undef rest ls1 (li + 1)
    rcases hL : scan_libs undef (li + 1) ls1 rest with ⟨ls2, rest1, any2, evs2⟩
    obtain ⟨oLen, oStep, oEv, oPw, oCnt, oAny, oNop, oLibs⟩ := hobj
    obtain ⟨lLen, lStep, lEv, lPw, lCnt, lAny, lNop, lLibs⟩ := ihl
    simp only [hO] at oLen oStep oEv oPw oCnt oAny oNop oLibs
    simp only [hL] at lLen lStep lEv lPw lCnt lAny lNop lLibs
    have hEQ : scan_libs undef li ls (lib :: rest) =
        (ls2, { objs := objs1 } :: rest1, any1 || any2, evs1 ++ evs2) := by
      simp [scan_libs, hO, hL]
    unfold LibsSpec
    rw [hEQ]
    refine ⟨?_, ?_, ?_, ?_, ?_, ?_, ?_, ?_⟩
    · simp [lLen]
    · intro j L hj
      cases j with
      | zero =>
        simp only [List.get?] at hj
        cases hj
        exact ⟨{ objs := objs1 }, rfl, oLen, oStep⟩
      | succ j =>
        obtain ⟨L1, h1, h2⟩ := lStep j L (by simpa using hj)
        exact ⟨L1, by simpa using h1, h2⟩
    · intro e he
      rcases List.mem_append.mp he with h | h
      · obtain ⟨he1, _, hflip⟩ := oEv e h
        refine ⟨by omega, lib, { objs := objs1 }, ?_, ?_, ?_⟩
        · rw [show e.1 - li = 0 from by omega]
          rfl
        · rw [show e.1 - li = 0 from by omega]
          rfl
        · simpa using hflip
      · obtain ⟨he1, L, L1, h1, h2, hflip⟩ := lEv e h
        refine ⟨by omega, L, L1, ?_, ?_, hflip⟩
        · rw [show e.1 - li = (e.1 - (li + 1)) + 1 from by omega]
          simpa using h1
        · rw [show e.1 - li = (e.1 - (li + 1)) + 1 from by omega]
          simpa using h2
    · rw [List.pairwise_append]
      refine ⟨?_, lPw, ?_⟩
      · refine List.Pairwise.imp_of_mem ?_ oPw
        intro a b ha hb hlt
        exact Or.inr ⟨by rw [(oEv a ha).1, (oEv b hb).1], hlt⟩
      · intro a ha b hb
        have h1 := (oEv a ha).1
        have h2 := (lEv b hb).1
        exact Or.inl (by omega)
    · simp only [List.map_cons, List.sum_cons, List.length_append]
      omega
    · simp [oAny, lAny, List.append_eq_nil]
    · intro h
      simp only [Bool.or_eq_false_iff] at h
      obtain ⟨hs1, ho1⟩ := oNop h.1
      obtain ⟨hs2, ho2⟩ := lNop h.2
      refine ⟨hs2.trans hs1, ?_⟩
      rw [ho1, ho2]
    · rw [lLibs, oLibs]

end Ld

end DeepCasm
namespace DeepCasm

namespace Ld

theorem objsStep_rfl (l : List CLibObj) : objsStep l l :=
  ⟨rfl, fun _ => Or.inl rfl⟩

theorem libsStep_rfl (l : List CLib) : libsStep l l :=
  ⟨rfl, fun _ L h => ⟨L, h, objsStep_rfl L.objs⟩⟩

theorem evLt_irrefl (a : Nat × Nat) : ¬ evLt a a := by
  unfold evLt
  omega

theorem pairwise_evLt_nodup {l : List (Nat × Nat)} (h : List.Pairwise evLt l) :
    l.Nodup := by
  refine List.Pairwise.imp ?_ h
  intro a b hab he
  exact evLt_irrefl b (he ▸ hab)

theorem objLoadedL_eq_some {libs : List CLib} {e : Nat × Nat} {b : Bool} :
    objLoadedL libs e = some b ↔
    ∃ L o, libs.get? e.1 = some L ∧ L.objs.get? e.2 = some o ∧ o.loaded = b := by
  unfold objLoadedL
  rw [Option.bind_eq_some]
  constructor
  · rintro ⟨L, h1, h2⟩
    rw [Option.map_eq_some'] at h2
    obtain ⟨o, h3, h4⟩ := h2
    exact ⟨L, o, h1, h3, h4⟩
  · rintro ⟨L, o, h1, h2, h3⟩
    refine ⟨L, h1, ?_⟩
    rw [Option.map_eq_some']
    exact ⟨o, h2, h3⟩

theorem libsStep_true_mono {o n : List CLib} (h : libsStep o n) (e : Nat × Nat)
    (ht : objLoadedL o e = some true) : objLoadedL n e = some true := by
  rw [objLoadedL_eq_some] at ht ⊢
  obtain ⟨L, ob, h1, h2, h3⟩ := ht
  obtain ⟨L1, hn1, hstep⟩ := h.2 e.1 L h1
  rcases hstep.2 e.2 with heq | hflip
  · refine ⟨L1, ob, hn1, ?_, h3⟩
    rw [heq]
    exact h2
  · obtain ⟨o2, g1, g2, g3⟩ := hflip
    exact ⟨L1, { o2 with loaded := true }, hn1, g3, rfl⟩

theorem libsStep_false_back {o n : List CLib} (h : libsStep o n) (e : Nat × Nat)
    (hf : objLoadedL n e = some false) : objLoadedL o e = some false := by
  rw [objLoadedL_eq_some] at hf ⊢
  obtain ⟨L1, nb, hn1, hn2, hn3⟩ := hf
  obtain ⟨hlen, hpt⟩ := h
  have h1 : ∃ L, o.get? e.1 = some L := by
    rcases ho : o.get? e.1 with _ | L
    · have hx := List.get?_eq_none.mp ho
      have hy := (List.get?_eq_some.mp hn1).1
      omega
    · exact ⟨L, rfl⟩
  obtain ⟨L, hL⟩ := h1
  obtain ⟨L1', hn1', hstep⟩ := hpt e.1 L hL
  rw [hn1] at hn1'
  cases hn1'
  obtain ⟨slen, spt⟩ := hstep
  have h2 : ∃ ob, L.objs.get? e.2 = some ob := by
    rcases ho2 : L.objs.get? e.2 with _ | ob
    · have hx := List.get?_eq_none.mp ho2
      have hy := (List.get?_eq_some.mp hn2).1
      omega
    · exact ⟨ob, rfl⟩
  obtain ⟨ob, hob⟩ := h2
  rcases spt e.2 with heq | hflip
  · rw [heq, hob] at hn2
    injection hn2 with hnb
    subst hnb
    exact ⟨L, _, hL, hob, hn3⟩
  · obtain ⟨o2, g1, g2, g3⟩ := hflip
    rw [g3] at hn2
    cases hn2
    simp at hn3

theorem lib_pass_spec (ls : LnkSt) :
    libsStep ls.libs (lib_pass ls).1.libs ∧
    (∀ e ∈ (lib_pass ls).2.2, objLoadedL ls.libs e = some false ∧
      objLoadedL (lib_pass ls).1.libs e = some true) ∧
    List.Pairwise evLt (lib_pass ls).2.2 ∧
    unloadedObjs (lib_pass ls).1 + (lib_pass ls).2.2.length = unloadedObjs ls ∧
    ((lib_pass ls).2.1 = false → (lib_pass ls).1 = ls ∧ (lib_pass ls).2.2 = []) ∧
    ((lib_pass ls).2.1 = true → (lib_pass ls).2.2 ≠ []) := by
  cases hU : (collect_undef ls).isEmpty with
  | true =>
    have hEQ : lib_pass ls = (ls, false, []) := by simp [lib_pass, hU]
    rw [hEQ]
    exact ⟨libsStep_rfl _, by simp, by simp, by simp, fun _ => ⟨rfl, rfl⟩, by simp⟩
  | false =>
    rcases hS : scan_libs (collect_undef ls) 0 ls ls.libs with ⟨ls1, libs1, any, evs⟩
    have hspec := scan_libs_spec (collect_undef ls) ls.libs ls 0
    obtain ⟨sLen, sStep, sEv, sPw, sCnt, sAny, sNop, sLibs⟩ := hspec
    simp only [hS] at sLen sStep sEv sPw sCnt sAny sNop sLibs
    have hEQ : lib_pass ls = ({ ls1 with libs := libs1 }, any, evs) := by
      simp [lib_pass, hU, hS]
    rw [hEQ]
    dsimp only
    refine ⟨⟨sLen, sStep⟩, ?_, sPw, ?_, ?_, ?_⟩
    · intro e he
      obtain ⟨_, L, L1, h1, h2, hflip⟩ := sEv e he
      obtain ⟨ob, g1, g2, g3⟩ := hflip
      constructor
      · rw [objLoadedL_eq_some]
        exact ⟨L, ob, by simpa using h1, g1, g2⟩
      · rw [objLoadedL_eq_some]
        exact ⟨L1, { ob with loaded := true }, by simpa using h2, g3, rfl⟩
    · unfold unloadedObjs
      dsimp only
      exact sCnt
    · intro hf
      obtain ⟨h1, h2⟩ := sNop hf
      refine ⟨?_, sAny.mp hf⟩
      rw [h2, h1]
    · intro ht hne
      have hfa := sAny.mpr hne
      rw [hfa] at ht
      cases ht

end Ld

end DeepCasm
namespace DeepCasm

namespace Ld

theorem run_loop_spec : ∀ (n : Nat) (ls : LnkSt), unloadedObjs ls < n →
    lib_pass (run_loop n ls).1 = ((run_loop n ls).1, false, []) ∧
    (run_loop n ls).2.Nodup ∧
    (∀ e ∈ (run_loop n ls).2, objLoadedL ls.libs e = some false ∧
      objLoadedL (run_loop n ls).1.libs e = some true) ∧
    (∀ e, objLoadedL ls.libs e = some true →
      objLoadedL (run_loop n ls).1.libs e = some true) ∧
    (∀ m, n ≤ m → run_loop m ls = run_loop n ls)
  | 0, ls, h => absurd h (by omega)
  | n + 1, ls, h => by
    rcases hP : lib_pass ls with ⟨ls1, any, evs⟩
    obtain ⟨pStep, pEv, pPw, pCnt, pNop, pAny⟩ := lib_pass_spec ls
    simp only [hP] at pStep pEv pPw pCnt pNop pAny
    cases hA : any with
    | false =>
      subst hA
      obtain ⟨h1, h2⟩ := pNop rfl
      subst h2
      rw [h1] at hP
      have hEQ : run_loop (n + 1) ls = (ls, []) := by simp [run_loop, hP]
      rw [hEQ]
      refine ⟨hP, by simp, by simp, fun e he => he, ?_⟩
      intro m hm
      rcases m with _ | m'
      · omega
      · simp [run_loop, hP]
    | true =>
      subst hA
      have hne := pAny rfl
      have hlen : 1 ≤ evs.length := List.length_pos.mpr hne
      have hlt : unloadedObjs ls1 < n := by omega
      obtain ⟨iExit, iNodup, iEv, iMono, iFuel⟩ := run_loop_spec n ls1 hlt
      rcases hR : run_loop n ls1 with ⟨fin, evs2⟩
      simp only [hR] at iExit iNodup iEv iMono iFuel
      have hEQ : run_loop (n + 1) ls = (fin, evs ++ evs2) := by
        simp [run_loop, hP, hR]
      rw [hEQ]
      refine ⟨iExit, ?_, ?_, ?_, ?_⟩
      · rw [List.nodup_append]
        refine ⟨pairwise_evLt_nodup pPw, iNodup, ?_⟩
        intro e he1 he2
        have h1 := (pEv e he1).2
        have h2 := (iEv e he2).1
        rw [h1] at h2
        simp at h2
      · intro e he
        rcases List.mem_append.mp he with h1 | h1
        · exact ⟨(pEv e h1).1, iMono e (pEv e h1).2⟩
        · exact ⟨libsStep_false_back pStep e (iEv e h1).1, (iEv e h1).2⟩
      · intro e ht
        exact iMono e (libsStep_true_mono pStep e ht)
      · intro m hm
        rcases m with _ | m'
        · omega
        · simp [run_loop, hP, iFuel m' (by omega)]

/-- C6: the selective library-loading loop terminates on every input
(any fuel beyond the unloaded-object count yields the same final
result), every library object is loaded at most once over the whole run
(the load-event list has no duplicates and each event flips exactly one
originally-unloaded object to loaded), the loop exits after the first
pass that loads nothing (a further pass on the final state is a no-op),
and an already-closed symbol set loads zero objects. -/
theorem c6_library_loading : ∀ ls : LnkSt,
    (∀ m, unloadedObjs ls + 1 ≤ m → run_loop m ls = process_libraries ls) ∧
    (process_libraries ls).2.Nodup ∧
    (∀ e ∈ (process_libraries ls).2, objLoaded ls e = some false ∧
      objLoaded (process_libraries ls).1 e = some true) ∧
    lib_pass (process_libraries ls).1 = ((process_libraries ls).1, false, []) ∧
    (collect_undef ls = [] → process_libraries ls = (ls, [])) := by
  intro ls
  obtain ⟨hExit, hNodup, hEv, hMono, hFuel⟩ :=
    run_loop_spec (unloadedObjs ls + 1) ls (by omega)
  refine ⟨?_, hNodup, ?_, hExit, ?_⟩
  · intro m hm
    exact hFuel m hm
  · intro e he
    exact hEv e he
  · intro hc
    have hP : lib_pass ls = (ls, false, []) := by simp [lib_pass, hc]
    show run_loop (unloadedObjs ls + 1) ls = (ls, [])
    simp [run_loop, hP]

end Ld

/-- Witness for `c6_library_loading`: the chained-need library `w6ls`
(ample fuel gives the stabilized result) and the already-closed
`w6closed` (no object is loaded). -/
theorem c6_library_loading_witness :
    (Ld.unloadedObjs w6ls + 1 ≤ 6 ∧ Ld.run_loop 6 w6ls = Ld.process_libraries w6ls) ∧
    (Ld.collect_undef w6closed = [] ∧ Ld.process_libraries w6closed = (w6closed, [])) :=
  ⟨⟨by decide, (Ld.c6_library_loading w6ls).1 6 (by decide)⟩,
   ⟨by decide, (Ld.c6_library_loading w6closed).2.2.2.2 (by decide)⟩⟩

end DeepCasm
